import Mathlib

/-!
Verification of the schedule-interpretation core of the `claude-time` scheduler.

The development shallowly embeds the TypeScript source:
* `src/parser.ts` — `parseTime`, `isValidTime`, `CRON_REGEX`, `parseSchedule`,
  `getNextRunTime`, `parseDayOfWeek`;
* `src/executor.ts` — `executeSchedule` (the headless execution dispatcher),
  embedded as an event-trace state machine over the JS event-loop callbacks;
* `src/scheduler.ts` — `Scheduler.runJob`, embedded as a state transformer over
  an abstract storage state with explicit throw points for the `try`/`catch`.

Strings are embedded as `List Char`.  JavaScript `Date` objects are embedded as
an integer count of local-clock milliseconds (a fixed-offset timezone without
DST transitions; `getTime` ordering agrees with local ordering in that model).
JS regular-expression calls are embedded as dedicated leftmost-match scanning
functions, exact for the concrete patterns of the source (whose adjacent
character classes are disjoint, so greedy matching is maximal-munch).
-/

set_option autoImplicit false

namespace ClaudeTime

/-- Embedded JS string: a list of characters. -/
abbrev Str := List Char

/-- `String` literal to embedded string. -/
def str (s : String) : Str := s.data

/-- ASCII decimal digit test (`\d` of JS regexes). -/
def isDigit (c : Char) : Bool := '0' ≤ c && c ≤ '9'

/-- Whitespace class `\s` of JS regexes (also the set trimmed by
`String.prototype.trim`): ASCII whitespace plus the Unicode space separators,
NBSP, BOM, and the line/paragraph separators. -/
def isSpaceJS (c : Char) : Bool :=
  c = ' ' || c = '\t' || c = '\n' || c = '\r' || c = Char.ofNat 0x0b ||
  c = Char.ofNat 0x0c || c = Char.ofNat 0xa0 || c = Char.ofNat 0x1680 ||
  (Char.ofNat 0x2000 ≤ c && c ≤ Char.ofNat 0x200a) ||
  c = Char.ofNat 0x2028 || c = Char.ofNat 0x2029 || c = Char.ofNat 0x202f ||
  c = Char.ofNat 0x205f || c = Char.ofNat 0x3000 || c = Char.ofNat 0xfeff

/-- Line terminators, the characters NOT matched by `.` in a JS regex. -/
def isLineTerm (c : Char) : Bool :=
  c = '\n' || c = '\r' || c = Char.ofNat 0x2028 || c = Char.ofNat 0x2029

/-- `c.toLowerCase()` on a character, for the ASCII range (the only cased
characters appearing in the source's patterns; Japanese has no case). -/
def jsToLower (c : Char) : Char :=
  if 'A' ≤ c && c ≤ 'Z' then Char.ofNat (c.toNat + 32) else c

/-- `input.toLowerCase()`. -/
def jsToLowerStr (s : Str) : Str := s.map jsToLower

/-- `s.trim()`: drop leading and trailing JS whitespace. -/
def jsTrim (s : Str) : Str :=
  ((s.dropWhile isSpaceJS).reverse.dropWhile isSpaceJS).reverse

/-- Numeric value of a nonempty list of decimal digits. -/
def digitsToNat (s : Str) : Nat :=
  s.foldl (fun acc c => 10 * acc + (c.toNat - 48)) 0

/-- Decimal digit character for `n < 10`. -/
def digitChar (n : Nat) : Char := Char.ofNat (48 + n)

/-- Fuel-driven decimal rendering; `fuel` bounds the number of digits. -/
def natDigitsAux : Nat → Nat → Str
  | 0, _ => []
  | fuel + 1, n =>
    if n < 10 then [digitChar n]
    else natDigitsAux fuel (n / 10) ++ [digitChar (n % 10)]

/-- `n.toString()` for a natural number (JS template-literal interpolation). -/
def natToStr (n : Nat) : Str := natDigitsAux (n + 1) n

/-- `s.padStart(2, '0')`. -/
def pad2 (s : Str) : Str := if 2 ≤ s.length then s else '0' :: s

/-- `s.split(sep)` of JS: split on every single occurrence of `sep`,
keeping empty pieces. -/
def splitOnChar (sep : Char) : Str → List Str
  | [] => [[]]
  | c :: rest =>
    if c = sep then [] :: splitOnChar sep rest
    else
      match splitOnChar sep rest with
      | t :: ts => (c :: t) :: ts
      | [] => [[c]]

/-- Strip a literal pattern from the front of `s`, returning the remainder. -/
def stripLit : Str → Str → Option Str
  | [], s => some s
  | _, [] => none
  | p :: ps, c :: cs => if c = p then stripLit ps cs else none

/-- Strip one-or-more JS whitespace (`\s+`), returning the remainder. -/
def stripWs1 (s : Str) : Option Str :=
  match s with
  | [] => none
  | c :: rest => if isSpaceJS c then some (rest.dropWhile isSpaceJS) else none

/-- `parseInt(s, 10)` of JS: skip leading whitespace, read an optional sign
and then the maximal run of leading decimal digits; `none` models `NaN`. -/
def parseIntJS (s : Str) : Option Int :=
  let digitsVal : Str → Option Nat := fun t =>
    let run := t.takeWhile isDigit
    if run.isEmpty then none else some (digitsToNat run)
  let s1 := s.dropWhile isSpaceJS
  match s1 with
  | '-' :: rest => (digitsVal rest).map (fun n => -(n : Int))
  | '+' :: rest => (digitsVal rest).map (fun n => (n : Int))
  | _ => (digitsVal s1).map (fun n => (n : Int))

/-! ### The JS `Date` model

A JS `Date` is embedded as its local-clock millisecond count, a plain `Int`
(negative values are dates before 1970).  The timezone has a fixed offset, so
`getTime()` ordering (used by `next <= now`) coincides with the ordering of
local milliseconds. -/


/-- `d.getMilliseconds()`. -/
def jsGetMilliseconds (t : Int) : Int := t % 1000

/-- `d.getSeconds()`. -/
def jsGetSeconds (t : Int) : Int := (t / 1000) % 60

/-- `d.getMinutes()`. -/
def jsGetMinutes (t : Int) : Int := (t / 60000) % 60

/-- `d.getHours()`. -/
def jsGetHours (t : Int) : Int := (t / 3600000) % 24

/-- Whole local days since 1970-01-01. -/
def epochDays (t : Int) : Int := t / 86400000

/-- `d.getDay()`: day of week, 0 = Sunday (1970-01-01 was a Thursday). -/
def jsGetDay (t : Int) : Int := (epochDays t + 4) % 7

/-- Civil (month, day-of-month) of a day count since 1970-01-01, by the
standard era-based Gregorian conversion. -/
def civilOfDays (z : Int) : Nat × Nat :=
  let z' := z + 719468
  let era := z' / 146097
  let doe := (z' - era * 146097).toNat
  let yoe := (doe - doe / 1460 + doe / 36524 - doe / 146096) / 365
  let doy := doe - (365 * yoe + yoe / 4 - yoe / 100)
  let mp := (5 * doy + 2) / 153
  let d := doy - (153 * mp + 2) / 5 + 1
  let m := if mp < 10 then mp + 3 else mp - 9
  (m, d)

/-- `d.getDate()`: day of month, 1-based. -/
def jsGetDate (t : Int) : Int := ((civilOfDays (epochDays t)).2 : Int)

/-- `d.getMonth()`: month, 0-based. -/
def jsGetMonth (t : Int) : Int := ((civilOfDays (epochDays t)).1 : Int) - 1

/-- `d.setMilliseconds(v)` (returns the updated date; JS mutates in place). -/
def jsSetMilliseconds (t : Int) (v : Int) : Int :=
  t - jsGetMilliseconds t + v

/-- `d.setSeconds(v)`, with JS overflow normalization. -/
def jsSetSeconds (t : Int) (v : Int) : Int :=
  t - jsGetSeconds t * 1000 + v * 1000

/-- `d.setMinutes(v)`, with JS overflow normalization. -/
def jsSetMinutes (t : Int) (v : Int) : Int :=
  t - jsGetMinutes t * 60000 + v * 60000

/-- `d.setHours(v)`, with JS overflow normalization. -/
def jsSetHours (t : Int) (v : Int) : Int :=
  t - jsGetHours t * 3600000 + v * 3600000

/-- `d.setDate(v)`: sets the day of month with JS normalization, which (in a
fixed-offset timezone) is exactly a shift by `v - getDate()` whole days. -/
def jsSetDate (t : Int) (v : Int) : Int :=
  t + (v - jsGetDate t) * 86400000

/-! ### `CRON_REGEX`

`/^(F)\s+(F)\s+(F)\s+(F)\s+(F)$/` with `F = \*(?:\/\d+)?|[0-9,\-\/]+`.
Field characters and whitespace are disjoint, so the anchored regex matches
exactly when the string splits into five maximal non-whitespace tokens,
separated by nonempty whitespace runs, with no leading or trailing
whitespace, each token fully matching the field pattern. -/

/-- One cron field: `*`, `*/digits`, or a nonempty string over `[0-9,\-\/]`. -/
def cronFieldOk (f : Str) : Bool :=
  f = ['*'] ||
  (match f with
   | '*' :: '/' :: ds => !ds.isEmpty && ds.all isDigit
   | _ => false) ||
  (!f.isEmpty && f.all (fun c => isDigit c || c = ',' || c = '-' || c = '/'))

/-- Match `n` whitespace-separated cron fields, anchored at both ends. -/
def matchCronFields : Nat → Str → Bool
  | 0, _ => false
  | 1, s =>
    cronFieldOk (s.takeWhile (fun c => !isSpaceJS c)) &&
      (s.dropWhile (fun c => !isSpaceJS c)).isEmpty
  | n + 2, s =>
    cronFieldOk (s.takeWhile (fun c => !isSpaceJS c)) &&
      match s.dropWhile (fun c => !isSpaceJS c) with
      | [] => false
      | r => matchCronFields (n + 1) (r.dropWhile isSpaceJS)

/-- `CRON_REGEX.test(s)`. -/
def cronRegexTest (s : Str) : Bool := matchCronFields 5 s

/-! ### Time Pattern Parser (`isValidTime`, `parseTime`) -/

/-- `isValidTime(hour, minute)`; the `0 ≤` halves are implicit in `Nat`. -/
def isValidTime (hour minute : Nat) : Bool := hour ≤ 23 && minute ≤ 59

/-- `(\d{1,2})` followed by a non-digit or the end: the maximal digit run,
which must have length 1 or 2. -/
def dig12Then (s : Str) : Option (Nat × Str) :=
  let run := s.takeWhile isDigit
  if run.length = 1 || run.length = 2 then
    some (digitsToNat run, s.dropWhile isDigit)
  else none

/-- `(\d+)` followed by a non-digit or the end: the maximal nonempty digit
run. -/
def digPlus (s : Str) : Option (Nat × Str) :=
  let run := s.takeWhile isDigit
  if run.isEmpty then none else some (digitsToNat run, s.dropWhile isDigit)

/-- Anchored `^(\d{1,2}):(\d{2})$`. -/
def colonTimeMatch (s : Str) : Option (Nat × Nat) :=
  (dig12Then s).bind fun (h, r) =>
    match r with
    | ':' :: r2 =>
      let run := r2.takeWhile isDigit
      if run.length = 2 && (r2.dropWhile isDigit).isEmpty then
        some (h, digitsToNat run)
      else none
    | _ => none

/-- Anchored `^(\d{1,2})\s*(am|pm)$/i`; returns the hour and whether `pm`. -/
def ampmMatch (s : Str) : Option (Nat × Bool) :=
  (dig12Then s).bind fun (h, r) =>
    match r.dropWhile isSpaceJS with
    | [c1, c2] =>
      if jsToLower c2 = 'm' then
        if jsToLower c1 = 'a' then some (h, false)
        else if jsToLower c1 = 'p' then some (h, true)
        else none
      else none
    | _ => none

/-- `(\d{1,2})時(?:(\d{1,2})分)?` at the current position: hour, minute
(0 when the optional group is absent), and the remainder. -/
def jpHourMinAt (s : Str) : Option (Nat × Nat × Str) :=
  (dig12Then s).bind fun (h, r) =>
    match r with
    | '時' :: r2 =>
      match dig12Then r2 with
      | some (m, r3) =>
        match r3 with
        | '分' :: r4 => some (h, m, r4)
        | _ => some (h, 0, r2)
      | none => some (h, 0, r2)
    | _ => none

/-- `parseTime(timeStr)`: `"9:00"`, `"9pm"`, `"9時30分"`, or a bare 1–2 digit
hour; `none` on any other shape or an out-of-range value. -/
def parseTime (timeStr : Str) : Option (Nat × Nat) :=
  match colonTimeMatch timeStr with
  | some (hour, minute) =>
    if isValidTime hour minute then some (hour, minute) else none
  | none =>
  match ampmMatch timeStr with
  | some (hour, isPM) =>
    if hour < 1 || 12 < hour then none
    else
      let hour := if isPM && hour ≠ 12 then hour + 12 else hour
      let hour := if !isPM && hour = 12 then 0 else hour
      some (hour, 0)
  | none =>
  match jpHourMinAt timeStr with
  | some (hour, minute, rest) =>
    if rest.isEmpty then
      if isValidTime hour minute then some (hour, minute) else none
    else none
  | none =>
  match dig12Then timeStr with
  | some (hour, rest) =>
    if rest.isEmpty then (if 23 < hour then none else some (hour, 0)) else none
  | none => none

/-! ### Schedule Language Parser (`parseSchedule`)

Each `.match(...)` call on an unanchored regex becomes a scanner that tries
the pattern at every position from the left (`scanFor`), reproducing the
regex's leftmost-match rule; greedy quantifiers are maximal-munch, exact here
because every adjacent pair of sub-patterns has disjoint character sets. -/

/-- Leftmost-match scanner: try `tryAt` at each suffix, leftmost first. -/
def scanFor {α : Type} (tryAt : Str → Option α) : Str → Option α
  | [] => tryAt []
  | c :: rest =>
    match tryAt (c :: rest) with
    | some r => some r
    | none => scanFor tryAt rest

/-- Parse / human-readable result of the Schedule Language Parser; the source
object `{success, cron_expression?, human_readable?, error?}` never carries
both a cron expression and an error. -/
inductive ParseResult where
  | ok (cron_expression : Str) (human_readable : Str)
  | err (error : Str)
  deriving DecidableEq, Repr

/-- The `success` flag of a `ParseResult`. -/
def ParseResult.success : ParseResult → Bool
  | .ok _ _ => true
  | .err _ => false

/-- The `cron_expression` field of a `ParseResult` (absent on failure). -/
def ParseResult.cron : ParseResult → Option Str
  | .ok c _ => some c
  | .err _ => none

/-- The `WEEKDAYS` symbol table, in JS `Object.entries` order (string keys in
insertion order). -/
def WEEKDAYS : List (Str × Nat) :=
  [(str "sunday", 0), (str "sun", 0), (str "monday", 1), (str "mon", 1),
   (str "tuesday", 2), (str "tue", 2), (str "wednesday", 3), (str "wed", 3),
   (str "thursday", 4), (str "thu", 4), (str "friday", 5), (str "fri", 5),
   (str "saturday", 6), (str "sat", 6),
   (str "日曜", 0), (str "日", 0), (str "月曜", 1), (str "月", 1),
   (str "火曜", 2), (str "火", 2), (str "水曜", 3), (str "水", 3),
   (str "木曜", 4), (str "木", 4), (str "金曜", 5), (str "金", 5),
   (str "土曜", 6), (str "土", 6)]

/-- `(?:at\s+)?(.+)` on a remainder that starts with a non-space: the group-1
capture (`.` stops at a line terminator; the optional `at` group is taken
greedily and given back if no whitespace follows it). -/
def atGroupRest (r : Str) : Str :=
  let r2 := match r with
    | 'a' :: 't' :: rest =>
      match stripWs1 rest with
      | some r3 => r3
      | none => r
    | _ => r
  r2.takeWhile (fun c => !isLineTerm c)

/-- `\s*(at\s+)?(.+)`: the group capture for the daily rule. -/
def atGroupTime (r : Str) : Str := atGroupRest (r.dropWhile isSpaceJS)

/-- Rule: `every\s+(\d+)\s+minutes?` with `0 < N ≤ 59` → `*/N * * * *`. -/
def everyMinutesRule (s : Str) : Option (Str × Str) :=
  let tryAt : Str → Option Nat := fun t =>
    (stripLit (str "every") t).bind fun r1 =>
    (stripWs1 r1).bind fun r2 =>
    (digPlus r2).bind fun (n, r3) =>
    (stripWs1 r3).bind fun r4 =>
    (stripLit (str "minute") r4).map fun _ => n
  (scanFor tryAt s).bind fun minutes =>
    if 0 < minutes && minutes ≤ 59 then
      some (str "*/" ++ natToStr minutes ++ str " * * * *",
        str "Every " ++ natToStr minutes ++ str " minute" ++
          (if 1 < minutes then str "s" else []))
    else none

/-- Rule: `(\d+)分(ごと|毎)` with `0 < N ≤ 59` → `*/N * * * *`. -/
def jpMinutesRule (s : Str) : Option (Str × Str) :=
  let tryAt : Str → Option Nat := fun t =>
    (digPlus t).bind fun (n, r1) =>
    match r1 with
    | '分' :: 'ご' :: 'と' :: _ => some n
    | '分' :: '毎' :: _ => some n
    | _ => none
  (scanFor tryAt s).bind fun minutes =>
    if 0 < minutes && minutes ≤ 59 then
      some (str "*/" ++ natToStr minutes ++ str " * * * *",
        natToStr minutes ++ str "分ごと")
    else none

/-- Rule: `every\s+hour` or `毎時|1時間(ごと|毎)` → `0 * * * *`. -/
def everyHourRule (s : Str) : Option (Str × Str) :=
  let engAt : Str → Option Unit := fun t =>
    (stripLit (str "every") t).bind fun r1 =>
    (stripWs1 r1).bind fun r2 =>
    (stripLit (str "hour") r2).map fun _ => ()
  let jpAt : Str → Option Unit := fun t =>
    match stripLit (str "毎時") t with
    | some _ => some ()
    | none =>
      (stripLit (str "1時間") t).bind fun r =>
      match r with
      | 'ご' :: 'と' :: _ => some ()
      | '毎' :: _ => some ()
      | _ => none
  if (scanFor engAt s).isSome || (scanFor jpAt s).isSome then
    some (str "0 * * * *", str "Every hour")
  else none

/-- Rule: `every\s+(\d+)\s+hours?` with `0 < N ≤ 23` → `0 */N * * *`. -/
def everyHoursRule (s : Str) : Option (Str × Str) :=
  let tryAt : Str → Option Nat := fun t =>
    (stripLit (str "every") t).bind fun r1 =>
    (stripWs1 r1).bind fun r2 =>
    (digPlus r2).bind fun (n, r3) =>
    (stripWs1 r3).bind fun r4 =>
    (stripLit (str "hour") r4).map fun _ => n
  (scanFor tryAt s).bind fun hours =>
    if 0 < hours && hours ≤ 23 then
      some (str "0 */" ++ natToStr hours ++ str " * * *",
        str "Every " ++ natToStr hours ++ str " hour" ++
          (if 1 < hours then str "s" else []))
    else none

/-- Rule: `(\d+)時間(ごと|毎)` with `0 < N ≤ 23` → `0 */N * * *`. -/
def jpHoursRule (s : Str) : Option (Str × Str) :=
  let tryAt : Str → Option Nat := fun t =>
    (digPlus t).bind fun (n, r1) =>
    match r1 with
    | '時' :: '間' :: 'ご' :: 'と' :: _ => some n
    | '時' :: '間' :: '毎' :: _ => some n
    | _ => none
  (scanFor tryAt s).bind fun hours =>
    if 0 < hours && hours ≤ 23 then
      some (str "0 */" ++ natToStr hours ++ str " * * *",
        natToStr hours ++ str "時間ごと")
    else none

/-- Rule: `(every\s+day|daily|毎日)\s*(at\s+)?(.+)` with a parsable, in-range
group-3 time → `MM HH * * *`. -/
def dailyRule (s : Str) : Option (Str × Str) :=
  let markerAt : Str → Option Str := fun t =>
    match
      (stripLit (str "every") t).bind fun r1 =>
      (stripWs1 r1).bind fun r2 => stripLit (str "day") r2
    with
    | some r => some r
    | none =>
      match stripLit (str "daily") t with
      | some r => some r
      | none => stripLit (str "毎日") t
  let tryAt : Str → Option Str := fun t =>
    (markerAt t).bind fun r =>
      let g := atGroupTime r
      if g.isEmpty then none else some g
  (scanFor tryAt s).bind fun g =>
    (parseTime (jsTrim g)).map fun (h, m) =>
      (natToStr m ++ str " " ++ natToStr h ++ str " * * *",
       str "Every day at " ++ natToStr h ++ str ":" ++ pad2 (natToStr m))

/-- Rule: `毎日\s*(\d{1,2})時(?:(\d{1,2})分)?` → `MM HH * * *`.
The source performs no `isValidTime` check on this branch. -/
def jpDailyRule (s : Str) : Option (Str × Str) :=
  let tryAt : Str → Option (Nat × Nat) := fun t =>
    (stripLit (str "毎日") t).bind fun r =>
    (jpHourMinAt (r.dropWhile isSpaceJS)).map fun (h, m, _) => (h, m)
  (scanFor tryAt s).map fun (hour, minute) =>
    (natToStr minute ++ str " " ++ natToStr hour ++ str " * * *",
     str "毎日 " ++ natToStr hour ++ str ":" ++ pad2 (natToStr minute))

/-- One entry of the `every WEEKDAY at TIME` loop:
`every\s+NAME\s+(?:at\s+)?(.+)` group 1. -/
def everyWeekdayAt (name : Str) (t : Str) : Option Str :=
  (stripLit (str "every") t).bind fun r1 =>
  (stripWs1 r1).bind fun r2 =>
  (stripLit name r2).bind fun r3 =>
  (stripWs1 r3).bind fun r4 =>
  let g := atGroupRest r4
  if g.isEmpty then none else some g

/-- Rule: `for (const [dayName, dayNum] of Object.entries(WEEKDAYS))`, first
entry whose regex matches and whose captured time parses → `MM HH * * D`. -/
def weekdayRuleAux : List (Str × Nat) → Str → Option (Str × Str)
  | [], _ => none
  | (name, num) :: rest, s =>
    match scanFor (everyWeekdayAt name) s with
    | some g =>
      (match parseTime (jsTrim g) with
       | some (h, m) =>
         some (natToStr m ++ str " " ++ natToStr h ++ str " * * " ++ natToStr num,
           str "Every " ++ name ++ str " at " ++ natToStr h ++ str ":" ++
             pad2 (natToStr m))
       | none => weekdayRuleAux rest s)
    | none => weekdayRuleAux rest s

/-- Rule wrapper for the English weekday loop. -/
def weekdayRule (s : Str) : Option (Str × Str) := weekdayRuleAux WEEKDAYS s

/-- One entry of the `毎週` loop: `毎週NAME(?:日)?\s*(\d{1,2})時(?:(\d{1,2})分)?`
(the optional `日` is taken greedily, given back on failure). -/
def jpWeekdayAt (name : Str) (t : Str) : Option (Nat × Nat) :=
  (stripLit (str "毎週") t).bind fun r1 =>
  (stripLit name r1).bind fun r2 =>
  let go : Str → Option (Nat × Nat) := fun r =>
    (jpHourMinAt (r.dropWhile isSpaceJS)).map fun (h, m, _) => (h, m)
  match r2 with
  | '日' :: rest =>
    (match go rest with
     | some v => some v
     | none => go r2)
  | _ => go r2

/-- Rule: the `毎週X曜日 X時` loop over `WEEKDAYS`; no `isValidTime` check. -/
def jpWeekdayRuleAux : List (Str × Nat) → Str → Option (Str × Str)
  | [], _ => none
  | (name, num) :: rest, s =>
    match scanFor (jpWeekdayAt name) s with
    | some (hour, minute) =>
      some (natToStr minute ++ str " " ++ natToStr hour ++ str " * * " ++ natToStr num,
        str "毎週" ++ name ++ str "曜日 " ++ natToStr hour ++ str ":" ++
          pad2 (natToStr minute))
    | none => jpWeekdayRuleAux rest s

/-- Rule wrapper for the Japanese weekday loop. -/
def jpWeekdayRule (s : Str) : Option (Str × Str) := jpWeekdayRuleAux WEEKDAYS s

/-- `weekdays?\s+(?:at\s+)?(.+)` / `weekends?\s+(?:at\s+)?(.+)` group 1:
the optional `s` is taken greedily, given back on failure. -/
def sOptWsGroupAt (word : Str) (t : Str) : Option Str :=
  (stripLit word t).bind fun r1 =>
  let afterWs := match r1 with
    | 's' :: rest =>
      (match stripWs1 rest with
       | some r => some r
       | none => stripWs1 r1)
    | _ => stripWs1 r1
  afterWs.bind fun r4 =>
    let g := atGroupRest r4
    if g.isEmpty then none else some g

/-- Rule: `weekdays at TIME` → `MM HH * * 1-5`. -/
def weekdaysRule (s : Str) : Option (Str × Str) :=
  (scanFor (sOptWsGroupAt (str "weekday")) s).bind fun g =>
    (parseTime (jsTrim g)).map fun (h, m) =>
      (natToStr m ++ str " " ++ natToStr h ++ str " * * 1-5",
       str "Weekdays at " ++ natToStr h ++ str ":" ++ pad2 (natToStr m))

/-- Rule: `平日\s*(\d{1,2})時(?:(\d{1,2})分)?` → `MM HH * * 1-5`;
no `isValidTime` check. -/
def jpWeekdaysRule (s : Str) : Option (Str × Str) :=
  let tryAt : Str → Option (Nat × Nat) := fun t =>
    (stripLit (str "平日") t).bind fun r =>
    (jpHourMinAt (r.dropWhile isSpaceJS)).map fun (h, m, _) => (h, m)
  (scanFor tryAt s).map fun (hour, minute) =>
    (natToStr minute ++ str " " ++ natToStr hour ++ str " * * 1-5",
     str "平日 " ++ natToStr hour ++ str ":" ++ pad2 (natToStr minute))

/-- Rule: `weekend at TIME` → `MM HH * * 0,6`. -/
def weekendRule (s : Str) : Option (Str × Str) :=
  (scanFor (sOptWsGroupAt (str "weekend")) s).bind fun g =>
    (parseTime (jsTrim g)).map fun (h, m) =>
      (natToStr m ++ str " " ++ natToStr h ++ str " * * 0,6",
       str "Weekends at " ++ natToStr h ++ str ":" ++ pad2 (natToStr m))

/-- Rule: `週末\s*(\d{1,2})時(?:(\d{1,2})分)?` → `MM HH * * 0,6`;
no `isValidTime` check. -/
def jpWeekendRule (s : Str) : Option (Str × Str) :=
  let tryAt : Str → Option (Nat × Nat) := fun t =>
    (stripLit (str "週末") t).bind fun r =>
    (jpHourMinAt (r.dropWhile isSpaceJS)).map fun (h, m, _) => (h, m)
  (scanFor tryAt s).map fun (hour, minute) =>
    (natToStr minute ++ str " " ++ natToStr hour ++ str " * * 0,6",
     str "週末 " ++ natToStr hour ++ str ":" ++ pad2 (natToStr minute))

/-- A JS time value is valid — the `Date` is not an Invalid Date — exactly
when its magnitude is at most 8.64e15 ms (100 000 000 days).  `now`, the
value of `new Date()`, is always valid, so a derived date is Invalid exactly
when its computed millisecond value leaves this range. -/
def dateValid (t : Int) : Bool :=
  -8640000000000000 ≤ t && t ≤ 8640000000000000

/-- One-shot cron expression `MM HH DD MM *` of a target `Date` (the template
`${getMinutes()} ${getHours()} ${getDate()} ${getMonth() + 1} *`).  On an
out-of-range target the `Date` is an Invalid Date, every getter returns
`NaN` (and `NaN + 1` is `NaN`), and the template renders `NaN NaN NaN NaN *`. -/
def oneShotCron (target : Int) : Str :=
  if dateValid target then
    natToStr (jsGetMinutes target).toNat ++ str " " ++
    natToStr (jsGetHours target).toNat ++ str " " ++
    natToStr (jsGetDate target).toNat ++ str " " ++
    natToStr (jsGetMonth target + 1).toNat ++ str " *"
  else str "NaN NaN NaN NaN *"

/-- `H:MM` display text of a target date, used by the one-shot rules; for an
Invalid Date both getters render `NaN` (`padStart(2, '0')` leaves the
three-character `NaN` unchanged). -/
def hmDisplay (target : Int) : Str :=
  if dateValid target then
    natToStr (jsGetHours target).toNat ++ str ":" ++
      pad2 (natToStr (jsGetMinutes target).toNat)
  else str "NaN:NaN"

/-- `${d.getDate()}`: the day of month, or `NaN` for an Invalid Date. -/
def renderGetDate (t : Int) : Str :=
  if dateValid t then natToStr (jsGetDate t).toNat else str "NaN"

/-- `${d.getMonth() + 1}`: the 1-based month, or `NaN` for an Invalid Date. -/
def renderGetMonthPlus1 (t : Int) : Str :=
  if dateValid t then natToStr (jsGetMonth t + 1).toNat else str "NaN"

/-- Rule: `(\d+)分後` → one-shot cron at `now + N` minutes. -/
def inMinutesRule (now : Int) (s : Str) : Option (Str × Str) :=
  let tryAt : Str → Option Nat := fun t =>
    (digPlus t).bind fun (n, r1) =>
    match r1 with
    | '分' :: '後' :: _ => some n
    | _ => none
  (scanFor tryAt s).map fun minutesLater =>
    let target := now + Int.ofNat minutesLater * 60 * 1000
    (oneShotCron target,
     natToStr minutesLater ++ str "分後 (" ++ hmDisplay target ++ str ")")

/-- Rule: `in\s+(\d+)\s+minutes?` → one-shot cron at `now + N` minutes. -/
def inMinutesEngRule (now : Int) (s : Str) : Option (Str × Str) :=
  let tryAt : Str → Option Nat := fun t =>
    (stripLit (str "in") t).bind fun r1 =>
    (stripWs1 r1).bind fun r2 =>
    (digPlus r2).bind fun (n, r3) =>
    (stripWs1 r3).bind fun r4 =>
    (stripLit (str "minute") r4).map fun _ => n
  (scanFor tryAt s).map fun minutesLater =>
    let target := now + Int.ofNat minutesLater * 60 * 1000
    (oneShotCron target,
     str "In " ++ natToStr minutesLater ++ str " minute" ++
       (if 1 < minutesLater then str "s" else []) ++
       str " (" ++ hmDisplay target ++ str ")")

/-- Rule: `明日\s*(\d{1,2})時(?:(\d{1,2})分)?` with `isValidTime` → one-shot
cron on tomorrow's date. -/
def tomorrowRule (now : Int) (s : Str) : Option (Str × Str) :=
  let tryAt : Str → Option (Nat × Nat) := fun t =>
    (stripLit (str "明日") t).bind fun r =>
    (jpHourMinAt (r.dropWhile isSpaceJS)).map fun (h, m, _) => (h, m)
  (scanFor tryAt s).bind fun (hour, minute) =>
    if isValidTime hour minute then
      let tomorrow := jsSetDate now (jsGetDate now + 1)
      some (natToStr minute ++ str " " ++ natToStr hour ++ str " " ++
          renderGetDate tomorrow ++ str " " ++
          renderGetMonthPlus1 tomorrow ++ str " *",
        str "明日 " ++ natToStr hour ++ str ":" ++ pad2 (natToStr minute))
    else none

/-- Rule: `tomorrow\s+(?:at\s+)?(.+)` with a parsable time → one-shot cron on
tomorrow's date. -/
def tomorrowEngRule (now : Int) (s : Str) : Option (Str × Str) :=
  let tryAt : Str → Option Str := fun t =>
    (stripLit (str "tomorrow") t).bind fun r1 =>
    (stripWs1 r1).bind fun r2 =>
    let g := atGroupRest r2
    if g.isEmpty then none else some g
  (scanFor tryAt s).bind fun g =>
    (parseTime (jsTrim g)).map fun (h, m) =>
      let tomorrow := jsSetDate now (jsGetDate now + 1)
      (natToStr m ++ str " " ++ natToStr h ++ str " " ++
          renderGetDate tomorrow ++ str " " ++
          renderGetMonthPlus1 tomorrow ++ str " *",
       str "Tomorrow at " ++ natToStr h ++ str ":" ++ pad2 (natToStr m))

/-- Rule: anchored `^(\d{1,2}):(\d{2})$` with `isValidTime` → daily
`MM HH * * *`. -/
def simpleColonRule (s : Str) : Option (Str × Str) :=
  (colonTimeMatch s).bind fun (hour, minute) =>
    if isValidTime hour minute then
      some (natToStr minute ++ str " " ++ natToStr hour ++ str " * * *",
        str "Every day at " ++ natToStr hour ++ str ":" ++ pad2 (natToStr minute))
    else none

/-- Rule: anchored `^(\d{1,2})時(?:(\d{1,2})分)?$` with `isValidTime` → daily
`MM HH * * *`. -/
def simpleJpRule (s : Str) : Option (Str × Str) :=
  (jpHourMinAt s).bind fun (hour, minute, rest) =>
    if rest.isEmpty then
      if isValidTime hour minute then
        some (natToStr minute ++ str " " ++ natToStr hour ++ str " * * *",
          str "毎日 " ++ natToStr hour ++ str ":" ++ pad2 (natToStr minute))
      else none
    else none

/-- Rule: `(\d+)時間後` → one-shot cron at `now + N` hours. -/
def inHoursRule (now : Int) (s : Str) : Option (Str × Str) :=
  let tryAt : Str → Option Nat := fun t =>
    (digPlus t).bind fun (n, r1) =>
    match r1 with
    | '時' :: '間' :: '後' :: _ => some n
    | _ => none
  (scanFor tryAt s).map fun hoursLater =>
    let target := now + Int.ofNat hoursLater * 60 * 60 * 1000
    (oneShotCron target,
     natToStr hoursLater ++ str "時間後 (" ++ hmDisplay target ++ str ")")

/-- Rule: `in\s+(\d+)\s+hours?` → one-shot cron at `now + N` hours. -/
def inHoursEngRule (now : Int) (s : Str) : Option (Str × Str) :=
  let tryAt : Str → Option Nat := fun t =>
    (stripLit (str "in") t).bind fun r1 =>
    (stripWs1 r1).bind fun r2 =>
    (digPlus r2).bind fun (n, r3) =>
    (stripWs1 r3).bind fun r4 =>
    (stripLit (str "hour") r4).map fun _ => n
  (scanFor tryAt s).map fun hoursLater =>
    let target := now + Int.ofNat hoursLater * 60 * 60 * 1000
    (oneShotCron target,
     str "In " ++ natToStr hoursLater ++ str " hour" ++
       (if 1 < hoursLater then str "s" else []) ++
       str " (" ++ hmDisplay target ++ str ")")

/-- The ordered rule cascade of `parseSchedule`, after the cron passthrough;
the order is exactly the source's top-to-bottom pattern order. -/
def ruleList (now : Int) : List (Str → Option (Str × Str)) :=
  [everyMinutesRule, jpMinutesRule, everyHourRule, everyHoursRule, jpHoursRule,
   dailyRule, jpDailyRule, weekdayRule, jpWeekdayRule, weekdaysRule,
   jpWeekdaysRule, weekendRule, jpWeekendRule, inMinutesRule now,
   inMinutesEngRule now, tomorrowRule now, tomorrowEngRule now,
   simpleColonRule, simpleJpRule, inHoursRule now, inHoursEngRule now]

/-- First rule that fires wins; later rules are not attempted. -/
def firstSome {α β : Type} : List (α → Option β) → α → Option β
  | [], _ => none
  | f :: fs, x =>
    match f x with
    | some r => some r
    | none => firstSome fs x

/-- The failure message of the final branch. -/
def errMsg (input : Str) : Str :=
  str "Could not parse schedule: \"" ++ input ++
  str "\". Try formats like \"every day at 9:00\", \"毎日9時\", \"9:00\", \"9時\", \"every 5 minutes\", or a cron expression."

/-- `parseSchedule(input)`: normalize (`toLowerCase().trim()`), try the cron
passthrough, then the ordered rule cascade, else a structured failure.
The relative one-time rules read the clock, so the embedding takes `now`. -/
def parseSchedule (now : Int) (input : Str) : ParseResult :=
  let normalized := jsTrim (jsToLowerStr input)
  if cronRegexTest normalized then
    .ok normalized (str "Custom cron expression")
  else
    match firstSome (ruleList now) normalized with
    | some (c, h) => .ok c h
    | none => .err (errMsg input)

/-! ### Next-Run Calculator (`getNextRunTime`, `parseDayOfWeek`) -/

/-- Inclusive integer range `[start, e]` of the `for (let i = start; i <= end)`
push loop (empty when `e < start`). -/
def intRange (start e : Nat) : List Int :=
  (List.range' start (e + 1 - start)).map Int.ofNat

/-- Anchored `/^\\d$/`: a single decimal digit. -/
def isSingleDigitField (s : Str) : Bool :=
  match s with
  | [c] => isDigit c
  | _ => false

/-- Anchored `/^(\\d)-(\\d)$/`: a single-digit to single-digit range. -/
def digitRangeField (s : Str) : Bool :=
  match s with
  | [d1, '-', d2] => isDigit d1 && isDigit d2
  | _ => false

/-- The comma branch and the final default of `parseDayOfWeek`.  In the comma
branch `parseInt` can yield `NaN`; `NaN` is encoded as `-1`, which (like
`NaN`) never equals a `getDay()` value `0..6`, the only comparisons the
program performs on this list. -/
def dowCommaOrDefault (s : Str) : List Int :=
  if s.contains ',' then
    (splitOnChar ',' s).map fun d => (parseIntJS (jsTrim d)).getD (-1)
  else [0, 1, 2, 3, 4, 5, 6]

/-- `parseDayOfWeek(dayOfWeek)`: single digit, `D-D` range, comma list, or
the all-days default `[0..6]`. -/
def parseDayOfWeek (dayOfWeek : Str) : List Int :=
  if isSingleDigitField dayOfWeek then
    [(((dayOfWeek.headD '0').toNat - 48 : Nat) : Int)]
  else
    match dayOfWeek with
    | [d1, '-', d2] =>
      if isDigit d1 && isDigit d2 then intRange (d1.toNat - 48) (d2.toNat - 48)
      else dowCommaOrDefault dayOfWeek
    | _ => dowCommaOrDefault dayOfWeek

/-- Anchored `/^\*\/(\d+)$/` on the minute field. -/
def starSlashMatch (s : Str) : Option Nat :=
  match s with
  | '*' :: '/' :: ds =>
    if !ds.isEmpty && ds.all isDigit then some (digitsToNat ds) else none
  | _ => none

/-- The `for (let i = 1; i <= 7; i++)` scan for the next day whose weekday is
in `targetDays`, checking `new Date(next)` shifted by `i` days. -/
def findHitDay (targetDays : List Int) (next : Int) : Option Int :=
  (List.range' 1 7).findSome? fun i =>
    if targetDays.contains (jsGetDay (jsSetDate next (jsGetDate next + Int.ofNat i)))
    then some (Int.ofNat i) else none

/-- `getNextRunTime(cronExpression)`: the four supported structural cases of
the Next-Run Calculator, else `null`.  The `Math.ceil` of the `*/N` branch is
the integer ceiling (for `interval = 0` JS produces an Invalid Date where this
model, via integer division by zero, yields minute `0`; no claim touches that
shape).  `parseInt` on a field reads its leading integer (`NaN` → `none`). -/
def getNextRunTime (now : Int) (cronExpression : Str) : Option Int :=
  let parts := splitOnChar ' ' cronExpression
  match parts with
  | [minute, hour, dayOfMonth, month, dayOfWeek] =>
    if minute == str "*" && hour == str "*" then
      let next := now
      let next := jsSetMinutes next (jsGetMinutes next + 1)
      let next := jsSetSeconds next 0
      let next := jsSetMilliseconds next 0
      some next
    else if (starSlashMatch minute).isSome && hour == str "*" then
      let interval : Int := ((starSlashMatch minute).getD 0 : Nat)
      let next := now
      let currentMinute := jsGetMinutes next
      let nextMinute := ((currentMinute + 1 + interval - 1) / interval) * interval
      let next :=
        if 60 ≤ nextMinute then
          let next := jsSetHours next (jsGetHours next + 1)
          jsSetMinutes next (nextMinute % 60)
        else jsSetMinutes next nextMinute
      let next := jsSetSeconds next 0
      let next := jsSetMilliseconds next 0
      some next
    else if (parseIntJS minute).isSome && hour == str "*" then
      let minuteNum := (parseIntJS minute).getD 0
      let next := now
      let next :=
        if minuteNum ≤ jsGetMinutes next then jsSetHours next (jsGetHours next + 1)
        else next
      let next := jsSetMinutes next minuteNum
      let next := jsSetSeconds next 0
      let next := jsSetMilliseconds next 0
      some next
    else if (parseIntJS minute).isSome && (parseIntJS hour).isSome &&
        dayOfMonth == str "*" && month == str "*" then
      let minuteNum := (parseIntJS minute).getD 0
      let hourNum := (parseIntJS hour).getD 0
      let next := now
      let next := jsSetHours next hourNum
      let next := jsSetMinutes next minuteNum
      let next := jsSetSeconds next 0
      let next := jsSetMilliseconds next 0
      if next ≤ now then
        if !(dayOfWeek == str "*") then
          let targetDays := parseDayOfWeek dayOfWeek
          let daysToAdd := (findHitDay targetDays next).getD 1
          some (jsSetDate next (jsGetDate next + daysToAdd))
        else
          some (jsSetDate next (jsGetDate next + 1))
      else if !(dayOfWeek == str "*") then
        let targetDays := parseDayOfWeek dayOfWeek
        if targetDays.contains (jsGetDay next) then some next
        else
          match findHitDay targetDays next with
          | some i => some (jsSetDate next (jsGetDate next + i))
          | none => some next
      else some next
    else none
  | _ => none

/-! ### Execution Dispatcher (`executeSchedule` of `src/executor.ts`)

The JS event loop serializes the callbacks of one invocation (`close`,
`error`, the 10-minute timeout, the 5-second escalation timer, data chunks).
The invocation is embedded as a fold of an explicit event trace over the
handler bodies; `safeResolve` is the one-shot resolution guard of the source. -/

/-- Normalized result `{success, output, error?, exitCode}`. -/
structure ExecutionResult where
  success : Bool
  output : Str
  error : Option Str
  exitCode : Option Int
  deriving DecidableEq, Repr

/-- One callback activation of the invocation. -/
inductive ExecEvent where
  | stdoutData (chunk : Str)
  | stderrData (chunk : Str)
  | closeEvt (code : Option Int)
  | errorEvt (message : Str)
  | timeoutFire
  | graceFire
  deriving DecidableEq, Repr

/-- The captured mutable state of one `executeSchedule` invocation, together
with instrumentation: the number of calls of the promise resolver and the
signals sent to the child. -/
structure ExecState where
  resolved : Bool
  timeoutArmed : Bool
  graceArmed : Bool
  stdoutBuf : Str
  stderrBuf : Str
  result : Option ExecutionResult
  resolveCalls : Nat
  sigterms : Nat
  sigkills : Nat
  deriving DecidableEq, Repr

/-- `safeResolve(result)`: resolve once; also `clearTimeout(timeoutId)`. -/
def safeResolve (r : ExecutionResult) (s : ExecState) : ExecState :=
  if s.resolved then s
  else { s with resolved := true, timeoutArmed := false, result := some r,
                resolveCalls := s.resolveCalls + 1 }

/-- Decimal rendering of an `Int` (JS template interpolation). -/
def intToStr (n : Int) : Str :=
  if n < 0 then '-' :: natToStr (-n).toNat else natToStr n.toNat

/-- `` `Process exited with code ${code}` `` (`null` when killed by signal). -/
def exitMsg (code : Option Int) : Str :=
  str "Process exited with code " ++
    (match code with | some n => intToStr n | none => str "null")

/-- One event-loop callback of `executeSchedule`, exactly the handler bodies
of the source: data append, `close`, `error`, the timeout handler (SIGTERM,
arm the 5s timer, resolve the timeout failure), and the 5s escalation timer
(`if (!resolved) proc.kill('SIGKILL')`). -/
def execStep (s : ExecState) : ExecEvent → ExecState
  | .stdoutData chunk => { s with stdoutBuf := s.stdoutBuf ++ chunk }
  | .stderrData chunk => { s with stderrBuf := s.stderrBuf ++ chunk }
  | .closeEvt code =>
    if code = some 0 then
      safeResolve { success := true, output := jsTrim s.stdoutBuf,
                    error := none, exitCode := some 0 } s
    else
      safeResolve { success := false, output := jsTrim s.stdoutBuf,
                    error := some (if (jsTrim s.stderrBuf).isEmpty then exitMsg code
                      else jsTrim s.stderrBuf),
                    exitCode := code } s
  | .errorEvt message =>
    safeResolve { success := false, output := [],
                  error := some (str "Failed to spawn claude: " ++ message),
                  exitCode := none } s
  | .timeoutFire =>
    if s.timeoutArmed then
      let s1 := { s with sigterms := s.sigterms + 1, graceArmed := true }
      safeResolve { success := false, output := jsTrim s1.stdoutBuf,
                    error := some (str "Execution timeout (10 minutes)"),
                    exitCode := none } s1
    else s
  | .graceFire =>
    if s.graceArmed then
      (if !s.resolved then { s with sigkills := s.sigkills + 1 } else s)
    else s

/-- State after the synchronous body of `executeSchedule` when `spawn`
succeeded: handlers registered, the 10-minute timer armed. -/
def initExecState : ExecState :=
  { resolved := false, timeoutArmed := true, graceArmed := false,
    stdoutBuf := [], stderrBuf := [], result := none,
    resolveCalls := 0, sigterms := 0, sigkills := 0 }

/-- State when `spawn` threw: `safeResolve` ran with `timeoutId` still null,
and no handlers or timers exist, so no events are ever delivered. -/
def spawnFailState (message : Str) : ExecState :=
  safeResolve { success := false, output := [],
                error := some (str "Failed to spawn claude: " ++ message),
                exitCode := none }
    { resolved := false, timeoutArmed := false, graceArmed := false,
      stdoutBuf := [], stderrBuf := [], result := none,
      resolveCalls := 0, sigterms := 0, sigkills := 0 }

/-- A whole `executeSchedule` invocation: the spawn outcome followed by an
arbitrary serialized event trace. -/
def executeScheduleRun (spawnOk : Bool) (message : Str)
    (events : List ExecEvent) : ExecState :=
  if spawnOk then events.foldl execStep initExecState
  else spawnFailState message

/-! ### Scheduler core (`Scheduler.runJob` of `src/scheduler.ts`)

`runJob` re-fetches the schedule, creates a `running` log entry, awaits the
dispatcher, then updates the log, the counters and `next_run_at` inside a
`try`; the `catch` records the failure.  The storage collaborator is embedded
as a record, each storage statement as a record update; a thrown exception at
a given statement (`ThrowPoint`) leaves that statement without effect and
jumps to the `catch`. -/

/-- Log entry status state machine. -/
inductive LogStatus where
  | running
  | success
  | failed
  deriving DecidableEq, Repr

/-- The execution-log entry owned by one run. -/
structure LogModel where
  status : LogStatus
  completedSet : Bool
  output : Option Str
  error : Option Str
  deriving DecidableEq, Repr

/-- The storage rows touched by one `runJob` (the schedule row fetched by id
plus this run's log entry). -/
structure SchedulerState where
  schedExists : Bool
  enabled : Bool
  cron : Str
  next_run_at : Option Int
  runCount : Nat
  errorCount : Nat
  log : Option LogModel
  deriving DecidableEq, Repr

/-- Statement of the `try` block at which the storage/dispatcher call throws. -/
inductive ThrowPoint where
  | atExec
  | atLogUpdate
  | atIncr
  | atNextRun
  | atNotify
  deriving DecidableEq, Repr

/-- `Storage.incrementRunCount(id, success)`: on success the `UPDATE` bumps
`run_count`, otherwise it bumps `error_count`; both branches also refresh
the `last_run_at` / `updated_at` timestamps, columns no claim observes and
the state does not track.  Neither branch touches `next_run_at`. -/
def incrementRunCount (success : Bool) (st : SchedulerState) : SchedulerState :=
  if success then { st with runCount := st.runCount + 1 }
  else { st with errorCount := st.errorCount + 1 }

/-- `storage.updateExecutionLog` with a terminal status from a result. -/
def updateLogTerminal (r : ExecutionResult) (st : SchedulerState) : SchedulerState :=
  { st with log := some { status := if r.success then .success else .failed,
                          completedSet := true, output := some r.output,
                          error := r.error } }

/-- The `catch` block: record the failure on the log, bump the error
counter.  It does not touch `next_run_at`. -/
def runJobCatch (thrownMsg : Str) (st : SchedulerState) : SchedulerState :=
  let st := { st with log := some { status := .failed, completedSet := true,
                                    output := (st.log.map LogModel.output).join,
                                    error := some thrownMsg } }
  incrementRunCount false st

/-- `Scheduler.runJob(scheduleId)`: skip when missing/disabled; create the
`running` log; then the `try` sequence (dispatch, log update, counter,
`next_run_at` recomputation via `getNextRunTime`, notification), jumping to
the `catch` at the throw point, if any. -/
def runJob (now : Int) (tp : Option ThrowPoint) (execResult : ExecutionResult)
    (thrownMsg : Str) (st : SchedulerState) : SchedulerState :=
  if !st.schedExists then st
  else if !st.enabled then st
  else
    let st := { st with log := some { status := .running, completedSet := false,
                                      output := none, error := none } }
    if tp = some .atExec then runJobCatch thrownMsg st
    else if tp = some .atLogUpdate then runJobCatch thrownMsg st
    else
      let st := updateLogTerminal execResult st
      if tp = some .atIncr then runJobCatch thrownMsg st
      else
        let st := incrementRunCount execResult.success st
        if tp = some .atNextRun then runJobCatch thrownMsg st
        else
          let st :=
            match getNextRunTime now st.cron with
            | some nextRun => { st with next_run_at := some nextRun }
            | none => st
          if tp = some .atNotify then runJobCatch thrownMsg st
          else st

/-- The guard structure of `getNextRunTime`: `true` exactly when the split
fields take one of the four supported branch shapes (star minute and hour;
`*/N` minute with star hour; leading-integer minute with star hour;
leading-integer minute and hour with literal-`*` day-of-month and month). -/
def supportedShape (parts : List Str) : Bool :=
  match parts with
  | [minute, hour, dayOfMonth, month, _] =>
    (minute == str "*" && hour == str "*") ||
    ((starSlashMatch minute).isSome && hour == str "*") ||
    ((parseIntJS minute).isSome && hour == str "*") ||
    ((parseIntJS minute).isSome && (parseIntJS hour).isSome &&
      dayOfMonth == str "*" && month == str "*")
  | _ => false

/-- The one-shot discipline of `executeSchedule`'s completion state: the
promise resolver has run exactly once iff `resolved` is set, the 5-second
escalation timer is armed only by the (immediately resolving) timeout
handler, a resolved invocation has a cleared 10-minute timer, and SIGKILL
has never been sent. -/
def ExecInv (s : ExecState) : Prop :=
  s.resolveCalls = (if s.resolved then 1 else 0) ∧
  (s.graceArmed = true → s.resolved = true) ∧
  (s.resolved = true → s.timeoutArmed = false) ∧
  s.sigkills = 0

/-! ### Evaluation checks: the embedding reproduces the expectations of the
repository's parser test suite (`parser.test.ts`). -/
def sampleNow : Int := 1700000000000

example : parseSchedule sampleNow (str "0 9 * * *") =
    .ok (str "0 9 * * *") (str "Custom cron expression") := by decide
example : parseSchedule sampleNow (str "*/5 * * * *") =
    .ok (str "*/5 * * * *") (str "Custom cron expression") := by decide
example : (parseSchedule sampleNow (str "every 5 minutes")).cron = some (str "*/5 * * * *") := by decide
example : (parseSchedule sampleNow (str "every hour")).cron = some (str "0 * * * *") := by decide
example : (parseSchedule sampleNow (str "every 2 hours")).cron = some (str "0 */2 * * *") := by decide
example : (parseSchedule sampleNow (str "every day at 9:00")).cron = some (str "0 9 * * *") := by decide
example : (parseSchedule sampleNow (str "daily at 21:30")).cron = some (str "30 21 * * *") := by decide
example : (parseSchedule sampleNow (str "every day at 9am")).cron = some (str "0 9 * * *") := by decide
example : (parseSchedule sampleNow (str "every day at 9pm")).cron = some (str "0 21 * * *") := by decide
example : (parseSchedule sampleNow (str "every monday at 10:00")).cron = some (str "0 10 * * 1") := by decide
example : (parseSchedule sampleNow (str "weekdays at 9:00")).cron = some (str "0 9 * * 1-5") := by decide
example : (parseSchedule sampleNow (str "weekend at 18:00")).cron = some (str "0 18 * * 0,6") := by decide
example : (parseSchedule sampleNow (str "5分ごと")).cron = some (str "*/5 * * * *") := by decide
example : (parseSchedule sampleNow (str "5分毎")).cron = some (str "*/5 * * * *") := by decide
example : (parseSchedule sampleNow (str "毎日9時")).cron = some (str "0 9 * * *") := by decide
example : (parseSchedule sampleNow (str "毎日9時30分")).cron = some (str "30 9 * * *") := by decide
example : (parseSchedule sampleNow (str "平日9時")).cron = some (str "0 9 * * 1-5") := by decide
example : (parseSchedule sampleNow (str "週末18時")).cron = some (str "0 18 * * 0,6") := by decide
example : (parseSchedule sampleNow (str "11:09")).cron = some (str "9 11 * * *") := by decide
example : (parseSchedule sampleNow (str "9時")).cron = some (str "0 9 * * *") := by decide
example : (parseSchedule sampleNow (str "21時30分")).cron = some (str "30 21 * * *") := by decide
example : (parseSchedule sampleNow (str "毎週月曜9時")).cron = some (str "0 9 * * 1") := by decide
example : (parseSchedule sampleNow (str "every day at 25:00")).success = false := by decide
example : (parseSchedule sampleNow (str "every day at 9:99")).success = false := by decide
example : (parseSchedule sampleNow (str "random gibberish")).success = false := by decide
example : (parseSchedule sampleNow (str "毎日25時")).cron = some (str "0 25 * * *") := by decide

example : (parseSchedule sampleNow (str "5分後")).cron = some (str "18 22 14 11 *") := by decide
example : (parseSchedule sampleNow (str "明日9時")).cron = some (str "0 9 15 11 *") := by decide
example : (parseSchedule sampleNow (str "2時間後")).cron = some (str "13 0 15 11 *") := by decide
example : (parseSchedule sampleNow (str "in 30 minutes")).cron = some (str "43 22 14 11 *") := by decide
example : (parseSchedule sampleNow (str "tomorrow at 9:00")).cron = some (str "0 9 15 11 *") := by decide

example : getNextRunTime sampleNow (str "* * * * *") = some 1700000040000 := by decide
example : getNextRunTime sampleNow (str "*/5 * * * *") = some 1700000100000 := by decide
example : getNextRunTime sampleNow (str "0 9 * * *") = some 1700038800000 := by decide
example : getNextRunTime sampleNow (str "invalid") = none := by decide
example : getNextRunTime sampleNow (str "not a cron") = none := by decide
example : getNextRunTime sampleNow (str "1,30 * * * *") = some 1700002860000 := by decide
example : getNextRunTime sampleNow (str "5 9 1 * *") = none := by decide
example : getNextRunTime sampleNow (str "* * 1 * *") = some 1700000040000 := by decide
example : parseDayOfWeek (str "*") = [0, 1, 2, 3, 4, 5, 6] := by decide
example : parseDayOfWeek (str "1-10") = [0, 1, 2, 3, 4, 5, 6] := by decide
example : parseDayOfWeek (str "1-5") = [1, 2, 3, 4, 5] := by decide
example : parseDayOfWeek (str "0,6") = [0, 6] := by decide
example : parseDayOfWeek (str ",") = [-1, -1] := by decide
-- "0 9 * * 1": 2023-11-14 is a Tuesday (getDay = 2); 9:00 already passed, next Monday is +6 days
example : getNextRunTime sampleNow (str "0 9 * * 1") = some (1699952400000 + 6 * 86400000) := by decide


/-! ## Claim theorems -/

/-- **C1** (code bug, evaluation at the failing input): the English daily
forms with out-of-range times fail as the spec demands, but the Japanese
`毎日X時` branch (`jpDailyMatch`) performs no `isValidTime` check: parsing
`毎日25時` succeeds and emits the out-of-range cron expression `0 25 * * *`,
although the analogous branches (`明日X時`, bare `X時`) do bounds-check. -/
theorem C1_jp_daily_out_of_range_accepted :
    (parseSchedule sampleNow (str "every day at 25:00")).success = false ∧
    (parseSchedule sampleNow (str "every day at 9:99")).success = false ∧
    parseSchedule sampleNow (str "毎日25時") =
      .ok (str "0 25 * * *") (str "毎日 25:00") := by decide

/-- **C2** (counterexample): the claim says a multi-value (comma) minute list
and an explicit day-of-month both yield no value, but `parseInt("1,30")`
reads the leading `1` (fixed-minute branch fires), and the star-minute branch
never inspects the day-of-month field. -/
theorem C2_counterexample :
    getNextRunTime sampleNow (str "1,30 * * * *") = some 1700002860000 ∧
    getNextRunTime sampleNow (str "* * 1 * *") = some 1700000040000 := by decide

/-- **C3** (counterexample): at local time 00:56:30.500 with `*/7`, the next
multiple of 7 after minute 56 is 63 ≥ 60; the claim demands a roll to the
next hour with minute 0 (01:00:00.000 = 3600000 ms), but the code sets
minute `63 % 60 = 3` (01:03:00.000 = 3780000 ms). -/
theorem C3_counterexample :
    getNextRunTime 3390500 (str "*/7 * * * *") = some 3780000 ∧
    jsGetHours 3780000 = 1 ∧ jsGetMinutes 3780000 = 3 ∧
    getNextRunTime 3390500 (str "*/7 * * * *") ≠ some 3600000 := by decide

/-- **C8** (counterexample): at exactly 09:00:00.000 (32400000 ms on
1970-01-01), the instant `now` itself has hour 9 and minute 0, so the
claim's "soonest such instant greater than or equal to the call time" is
`now`; but `next <= now` holds on equality and the code returns tomorrow's
9:00 instead. -/
theorem C8_counterexample :
    jsGetHours 32400000 = 9 ∧ jsGetMinutes 32400000 = 0 ∧
    getNextRunTime 32400000 (str "0 9 * * *") = some (32400000 + 86400000) ∧
    getNextRunTime 32400000 (str "0 9 * * *") ≠ some 32400000 := by decide

/-- **C6** (counterexample): a run of an enabled schedule with the valid,
supported cron `0 9 * * *` that throws at the dispatch step takes the
`catch` path, which never recomputes `next_run_at`: the stored value stays
`some 0` although the calculator output at this firing is
`some 1700038800000`. -/
theorem C6_counterexample :
    (runJob sampleNow (some ThrowPoint.atExec)
        { success := true, output := str "o", error := none, exitCode := some 0 }
        (str "SQLITE_BUSY")
        { schedExists := true, enabled := true, cron := str "0 9 * * *",
          next_run_at := some 0, runCount := 3, errorCount := 0,
          log := none }).next_run_at = some 0 ∧
    getNextRunTime sampleNow (str "0 9 * * *") = some 1700038800000 := by decide

/-- **C10**: any day-of-week field that is not a single digit, not a
single-digit range and has no comma — `*`, `1-10`, arbitrary garbage — falls
through every branch of `parseDayOfWeek` to the all-days default
`[0,1,2,3,4,5,6]`. -/
theorem C10_malformed_dow_all_days (s : Str)
    (h1 : isSingleDigitField s = false)
    (h2 : digitRangeField s = false)
    (h3 : s.contains ',' = false) :
    parseDayOfWeek s = [0, 1, 2, 3, 4, 5, 6] := by
  unfold parseDayOfWeek dowCommaOrDefault
  simp only [h1, Bool.false_eq_true, if_false]
  split
  · next d1 d2 =>
    simp only [digitRangeField] at h2
    simp only [h2, h3, Bool.false_eq_true, if_false]
  · simp only [h3, Bool.false_eq_true, if_false]

/-- Witness for **C10** at the claim's own example `1-10` (a multi-digit
range): the hypotheses hold and the result is all seven days. -/
theorem C10_witness :
    (isSingleDigitField (str "1-10") = false ∧
     digitRangeField (str "1-10") = false ∧
     (str "1-10").contains ',' = false) ∧
    parseDayOfWeek (str "1-10") = [0, 1, 2, 3, 4, 5, 6] :=
  ⟨⟨by decide, by decide, by decide⟩,
   C10_malformed_dow_all_days _ (by decide) (by decide) (by decide)⟩


/-! ### Dispatcher lemmas (C4, C5) -/

/-- `safeResolve` preserves the one-shot discipline. -/
theorem execInv_safeResolve (r : ExecutionResult) (s : ExecState)
    (h : ExecInv s) : ExecInv (safeResolve r s) := by
  rcases h with ⟨hc, hg, ht, hk⟩
  unfold safeResolve
  split_ifs with hr
  · exact ⟨hc, hg, ht, hk⟩
  · refine ⟨?_, ?_, ?_, hk⟩ <;> simp_all

/-- Every event-loop callback preserves the one-shot discipline. -/
theorem execInv_step (s : ExecState) (e : ExecEvent)
    (h : ExecInv s) : ExecInv (execStep s e) := by
  obtain ⟨hc, hg, ht, hk⟩ := h
  cases e with
  | stdoutData chunk => exact ⟨hc, hg, ht, hk⟩
  | stderrData chunk => exact ⟨hc, hg, ht, hk⟩
  | closeEvt code =>
    simp only [execStep]
    split_ifs <;> exact execInv_safeResolve _ _ ⟨hc, hg, ht, hk⟩
  | errorEvt message => exact execInv_safeResolve _ _ ⟨hc, hg, ht, hk⟩
  | timeoutFire =>
    simp only [execStep]
    split_ifs with ha
    · have hr : s.resolved = false := by
        by_contra hcon
        simp only [Bool.not_eq_false] at hcon
        simp [ht hcon] at ha
      unfold safeResolve
      refine ⟨?_, ?_, ?_, ?_⟩ <;> simp [hr, hk, hc]
    · exact ⟨hc, hg, ht, hk⟩
  | graceFire =>
    simp only [execStep]
    split_ifs with ha hr
    · simp [hg ha] at hr
    · exact ⟨hc, hg, ht, hk⟩
    · exact ⟨hc, hg, ht, hk⟩

/-- The discipline holds after any trace from any state satisfying it. -/
theorem execInv_fold (es : List ExecEvent) (s : ExecState)
    (h : ExecInv s) : ExecInv (es.foldl execStep s) := by
  induction es generalizing s with
  | nil => exact h
  | cons e es ih => exact ih _ (execInv_step s e h)

/-- The discipline holds at the start of a spawn-successful invocation. -/
theorem execInv_init : ExecInv initExecState := by
  refine ⟨?_, ?_, ?_, ?_⟩ <;> simp [initExecState]

/-- The discipline holds after a spawn failure. -/
theorem execInv_spawnFail (m : Str) : ExecInv (spawnFailState m) := by
  refine ⟨?_, ?_, ?_, ?_⟩ <;> simp [spawnFailState, safeResolve]

/-- Every state of an `executeSchedule` invocation obeys the discipline. -/
theorem executeScheduleRun_inv (spawnOk : Bool) (msg : Str)
    (es : List ExecEvent) : ExecInv (executeScheduleRun spawnOk msg es) := by
  unfold executeScheduleRun
  split_ifs
  · exact execInv_fold es _ execInv_init
  · exact execInv_spawnFail msg

/-- Once resolved, no later callback changes `resolved`, the stored result,
or the number of resolver calls. -/
theorem execStep_frozen (s : ExecState) (e : ExecEvent)
    (h : s.resolved = true) :
    (execStep s e).resolved = true ∧ (execStep s e).result = s.result ∧
      (execStep s e).resolveCalls = s.resolveCalls := by
  cases e with
  | stdoutData chunk => exact ⟨h, rfl, rfl⟩
  | stderrData chunk => exact ⟨h, rfl, rfl⟩
  | closeEvt code =>
    simp only [execStep, safeResolve, h]
    split_ifs <;> simp_all
  | errorEvt message =>
    simp only [execStep, safeResolve, h]
    split_ifs <;> simp_all
  | timeoutFire =>
    simp only [execStep, safeResolve, h]
    split_ifs <;> simp_all
  | graceFire =>
    simp only [execStep]
    split_ifs <;> simp_all

/-- Trace extension of `execStep_frozen`. -/
theorem execFold_frozen (es : List ExecEvent) (s : ExecState)
    (h : s.resolved = true) :
    (es.foldl execStep s).resolved = true ∧
      (es.foldl execStep s).result = s.result ∧
      (es.foldl execStep s).resolveCalls = s.resolveCalls := by
  induction es generalizing s with
  | nil => exact ⟨h, rfl, rfl⟩
  | cons e es ih =>
    obtain ⟨h1, h2, h3⟩ := execStep_frozen s e h
    obtain ⟨g1, g2, g3⟩ := ih (execStep s e) h1
    exact ⟨g1, g2.trans h2, g3.trans h3⟩

/-- **C5**: whichever completion signal {normal exit, spawn error, process
error event, timeout} occurred first in the trace `es` (so that the
invocation is resolved), the underlying promise resolver has been called
exactly once, and any continuation `extra` of the trace — further exits,
error events or timer firings — is a no-op: the invocation stays resolved
with the identical result and no further resolver call. -/
theorem C5_resolved_exactly_once (spawnOk : Bool) (msg : Str)
    (es extra : List ExecEvent)
    (h : (executeScheduleRun spawnOk msg es).resolved = true) :
    (executeScheduleRun spawnOk msg es).resolveCalls = 1 ∧
    (executeScheduleRun spawnOk msg (es ++ extra)).resolved = true ∧
    (executeScheduleRun spawnOk msg (es ++ extra)).result =
      (executeScheduleRun spawnOk msg es).result ∧
    (executeScheduleRun spawnOk msg (es ++ extra)).resolveCalls = 1 := by
  have hc := (executeScheduleRun_inv spawnOk msg es).1
  rw [h] at hc
  simp only [if_true] at hc
  cases spawnOk with
  | false =>
    refine ⟨hc, ?_, ?_, ?_⟩
    · simp [executeScheduleRun, spawnFailState, safeResolve]
    · simp [executeScheduleRun]
    · simp [executeScheduleRun, spawnFailState, safeResolve]
  | true =>
    simp only [executeScheduleRun, if_true, List.foldl_append] at h hc ⊢
    obtain ⟨g1, g2, g3⟩ := execFold_frozen extra _ h
    exact ⟨hc, g1, g2, g3.trans hc⟩

/-- Witness for **C5**: a normal exit followed by a late timeout firing and
a late grace firing — the result is the exit result, resolved once. -/
theorem C5_witness :
    ((executeScheduleRun true [] [ExecEvent.closeEvt (some 0)]).resolved = true) ∧
    ((executeScheduleRun true [] [ExecEvent.closeEvt (some 0)]).resolveCalls = 1 ∧
     (executeScheduleRun true []
        ([ExecEvent.closeEvt (some 0)] ++
          [ExecEvent.timeoutFire, ExecEvent.graceFire])).resolved = true ∧
     (executeScheduleRun true []
        ([ExecEvent.closeEvt (some 0)] ++
          [ExecEvent.timeoutFire, ExecEvent.graceFire])).result =
       (executeScheduleRun true [] [ExecEvent.closeEvt (some 0)]).result ∧
     (executeScheduleRun true []
        ([ExecEvent.closeEvt (some 0)] ++
          [ExecEvent.timeoutFire, ExecEvent.graceFire])).resolveCalls = 1) :=
  ⟨by decide, C5_resolved_exactly_once true [] _ _ (by decide)⟩

/-- **C4** (code bug): in no invocation and no event trace does the
dispatcher ever send SIGKILL — the escalation guard `if (!resolved)` reads
the flag that the timeout handler's own `safeResolve` has already set, so
the 5-second escalation of the claim is dead code.  The remainder of the
claim is real: in the concrete timeout trace below, expiry sends exactly one
SIGTERM and resolves the invocation exactly once as a timeout failure
carrying the output captured so far — yet even with the child still alive at
the grace firing, `sigkills` stays 0. -/
theorem C4_sigkill_never_sent (spawnOk : Bool) (msg : Str)
    (es : List ExecEvent) :
    (executeScheduleRun spawnOk msg es).sigkills = 0 ∧
    ((executeScheduleRun true []
        [ExecEvent.stdoutData (str "partial output"), ExecEvent.timeoutFire,
         ExecEvent.graceFire]).sigterms = 1 ∧
     (executeScheduleRun true []
        [ExecEvent.stdoutData (str "partial output"), ExecEvent.timeoutFire,
         ExecEvent.graceFire]).resolveCalls = 1 ∧
     (executeScheduleRun true []
        [ExecEvent.stdoutData (str "partial output"), ExecEvent.timeoutFire,
         ExecEvent.graceFire]).result =
       some { success := false, output := str "partial output",
              error := some (str "Execution timeout (10 minutes)"),
              exitCode := none }) :=
  ⟨(executeScheduleRun_inv spawnOk msg es).2.2.2, by decide, by decide, by decide⟩


/-! ### Next-Run Calculator shape characterization (C2) -/

/-- **C2** (amended): `getNextRunTime` is total (never throws) and returns no
value exactly when the expression does not split into five space-separated
fields or the fields fit none of the four branch guards captured by
`supportedShape`.  The claim's blanket statements fail: branches 1–3 never
inspect the day-of-month/month fields, and `parseInt` reads the leading
number of a comma list, so e.g. `1,30 * * * *` and `* * 1 * *` return
values. -/
theorem C2_amended_null_iff_unsupported (now : Int) (s : Str) :
    getNextRunTime now s = none ↔ supportedShape (splitOnChar ' ' s) = false := by
  unfold getNextRunTime supportedShape
  generalize splitOnChar ' ' s = parts
  rcases parts with _ | ⟨minute, _ | ⟨hour, _ | ⟨dom, _ | ⟨mo, _ | ⟨dow, _ | ⟨x, rest⟩⟩⟩⟩⟩⟩
  · simp
  · simp
  · simp
  · simp
  · simp
  · dsimp only
    split_ifs <;> first | (split <;> simp_all) | simp_all
  · simp


/-! ### Decimal rendering lemmas -/

/-- Digit characters are digits. -/
theorem isDigit_digitChar {n : Nat} (h : n < 10) : isDigit (digitChar n) = true := by
  interval_cases n <;> decide

/-- Every character produced by the fuel renderer is a digit. -/
theorem natDigitsAux_all_digits :
    ∀ fuel n, ∀ c ∈ natDigitsAux fuel n, isDigit c = true := by
  intro fuel
  induction fuel with
  | zero => intro n c hc; simp [natDigitsAux] at hc
  | succ fuel ih =>
    intro n c hc
    unfold natDigitsAux at hc
    split_ifs at hc with h
    · simp only [List.mem_singleton] at hc
      subst hc
      exact isDigit_digitChar h
    · rcases List.mem_append.mp hc with h1 | h1
      · exact ih _ _ h1
      · simp only [List.mem_singleton] at h1
        subst h1
        exact isDigit_digitChar (Nat.mod_lt _ (by norm_num))

/-- Every character of `natToStr n` is a digit. -/
theorem natToStr_all_digits (n : Nat) : ∀ c ∈ natToStr n, isDigit c = true :=
  natDigitsAux_all_digits (n + 1) n

/-- The rendering of a natural number is nonempty. -/
theorem natToStr_ne_nil (n : Nat) : natToStr n ≠ [] := by
  unfold natToStr natDigitsAux
  split_ifs <;> simp

/-- A digit character is not a space. -/
theorem isDigit_ne_space {c : Char} (h : isDigit c = true) : ¬ c = ' ' := by
  rintro rfl
  exact absurd h (by decide)

/-- Folding one more digit. -/
theorem digitsToNat_append_digit (l : Str) (c : Char) :
    digitsToNat (l ++ [c]) = 10 * digitsToNat l + (c.toNat - 48) := by
  simp [digitsToNat, List.foldl_append]

/-- Value of a single digit character. -/
theorem digitsToNat_digitChar {n : Nat} (h : n < 10) :
    digitsToNat [digitChar n] = n := by
  interval_cases n <;> decide

/-- The renderer round-trips through the digit evaluator. -/
theorem digitsToNat_natDigitsAux :
    ∀ fuel n, n < 10 ^ fuel → digitsToNat (natDigitsAux fuel n) = n := by
  intro fuel
  induction fuel with
  | zero =>
    intro n h
    simp only [pow_zero, Nat.lt_one_iff] at h
    subst h
    decide
  | succ fuel ih =>
    intro n h
    unfold natDigitsAux
    split_ifs with h10
    · exact digitsToNat_digitChar h10
    · rw [digitsToNat_append_digit,
        ih (n / 10) (Nat.div_lt_of_lt_mul (by rw [pow_succ] at h; omega))]
      have hd : (digitChar (n % 10)).toNat = 48 + n % 10 := by
        have := Nat.mod_lt n (show 0 < 10 by norm_num)
        interval_cases h : n % 10 <;> decide
      omega

/-- `digitsToNat (natToStr n) = n`. -/
theorem digitsToNat_natToStr (n : Nat) : digitsToNat (natToStr n) = n :=
  digitsToNat_natDigitsAux (n + 1) n
    (lt_of_lt_of_le (Nat.lt_pow_self (by norm_num) n)
      (Nat.pow_le_pow_right (by norm_num) (Nat.le_succ n)))

/-- Splitting a space-free field glued to the literal tail `" * * * *"`. -/
theorem splitOnChar_cron5 (f : Str) (hf : ∀ c ∈ f, ¬ c = ' ') :
    splitOnChar ' ' (f ++ str " * * * *") =
      [f, str "*", str "*", str "*", str "*"] := by
  induction f with
  | nil => decide
  | cons c f ih =>
    have hc : ¬ c = ' ' := hf c (List.mem_cons_self c f)
    have ih2 := ih fun d hd => hf d (List.mem_cons_of_mem c hd)
    simp [splitOnChar, hc, ih2]

/-- `starSlashMatch` recognizes a rendered step field. -/
theorem starSlashMatch_natToStr (n : Nat) :
    starSlashMatch ('*' :: '/' :: natToStr n) = some n := by
  unfold starSlashMatch
  have h1 : (natToStr n).isEmpty = false := by
    simp [List.isEmpty_iff, natToStr_ne_nil n]
  have h2 : (natToStr n).all isDigit = true := by
    simp only [List.all_eq_true]
    exact natToStr_all_digits n
  simp [h1, h2, digitsToNat_natToStr n]

/-! ### The `*/N` branch (C3) -/

/-- **C3** (amended): for `N ∈ [1,59]` the `*/N` branch returns `now` with
its minute replaced by `M`, the least multiple of `N` strictly greater than
`now`'s minute (witnessed by `M % N = 0`, `minutes < M ≤ minutes + N`), with
seconds and milliseconds zeroed — an instant strictly after `now` whose
minute reads `M % 60`.  When `M ≥ 60` this rolls into the next hour with
minute `M % 60`, which is `0` exactly when `M = 60` (the claim's
"minute 0" description holds only there). -/
theorem C3_amended_step_minute (N : Nat) (now : Int)
    (hN1 : 1 ≤ N) (hN2 : N ≤ 59) :
    ∃ M : Int,
      M % (N : Int) = 0 ∧ jsGetMinutes now < M ∧ M ≤ jsGetMinutes now + N ∧
      getNextRunTime now (str "*/" ++ natToStr N ++ str " * * * *") =
        some (now - now % 60000 + (M - jsGetMinutes now) * 60000) ∧
      jsGetMinutes (now - now % 60000 + (M - jsGetMinutes now) * 60000) = M % 60 ∧
      now < now - now % 60000 + (M - jsGetMinutes now) * 60000 := by
  have hsplit : splitOnChar ' ' (str "*/" ++ natToStr N ++ str " * * * *") =
      ['*' :: '/' :: natToStr N, str "*", str "*", str "*", str "*"] := by
    have he : str "*/" ++ natToStr N ++ str " * * * *" =
        ('*' :: '/' :: natToStr N) ++ str " * * * *" := by
      simp [str]
    rw [he]
    refine splitOnChar_cron5 _ ?_
    intro c hc
    simp only [List.mem_cons] at hc
    rcases hc with rfl | rfl | hc
    · decide
    · decide
    · exact isDigit_ne_space (natToStr_all_digits N c hc)
  have hne : ¬ ('*' :: '/' :: natToStr N) == str "*" := by
    simp [str, List.instBEq, List.beq]
  unfold getNextRunTime
  rw [hsplit]
  dsimp only
  rw [starSlashMatch_natToStr N]
  simp only [hne, Option.isSome_some, Bool.false_and, Bool.true_and,
    Bool.false_eq_true, if_false, beq_self_eq_true, if_true, Option.getD_some]
  have hNne : (N : Int) ≠ 0 := by exact_mod_cast (by omega : N ≠ 0)
  have hNpos : (0 : Int) < (N : Int) := by exact_mod_cast hN1
  have hN59 : (N : Int) ≤ 59 := by exact_mod_cast hN2
  have hdm := Int.ediv_add_emod (jsGetMinutes now + 1 + (N : Int) - 1) (N : Int)
  have hr0 := Int.emod_nonneg (jsGetMinutes now + 1 + (N : Int) - 1) hNne
  have hr1 := Int.emod_lt_of_pos (jsGetMinutes now + 1 + (N : Int) - 1) hNpos
  have hM : ((jsGetMinutes now + 1 + (N : Int) - 1) / (N : Int)) * (N : Int) =
      jsGetMinutes now + (N : Int) -
        ((jsGetMinutes now + 1 + (N : Int) - 1) % (N : Int)) := by
    rw [mul_comm]
    linarith [hdm]
  refine ⟨jsGetMinutes now + (N : Int) -
      ((jsGetMinutes now + 1 + (N : Int) - 1) % (N : Int)), ?_, ?_, ?_, ?_, ?_, ?_⟩
  · exact Int.emod_eq_zero_of_dvd
      ⟨(jsGetMinutes now + 1 + (N : Int) - 1) / (N : Int), by linarith [hdm]⟩
  · simp only [jsGetMinutes] at *
    omega
  · simp only [jsGetMinutes] at *
    omega
  · congr 1
    simp only [jsSetMilliseconds, jsSetSeconds, jsSetMinutes, jsSetHours,
      jsGetMilliseconds, jsGetSeconds, jsGetMinutes, jsGetHours] at *
    rw [hM]
    clear hM hdm hNne hNpos hsplit hne
    split_ifs with h60 <;> omega
  · simp only [jsGetMinutes] at *
    omega
  · simp only [jsGetMinutes] at *
    omega

/-- Witness for **C3** at `N = 7`, `now` = 00:56:30.500: the least multiple
of 7 after minute 56 is 63, and the result is 01:03:00.000. -/
theorem C3_amended_witness :
    (1 ≤ 7 ∧ 7 ≤ 59) ∧
    (∃ M : Int,
      M % ((7 : Nat) : Int) = 0 ∧
      jsGetMinutes 3390500 < M ∧ M ≤ jsGetMinutes 3390500 + (7 : Nat) ∧
      getNextRunTime 3390500 (str "*/" ++ natToStr 7 ++ str " * * * *") =
        some (3390500 - 3390500 % 60000 + (M - jsGetMinutes 3390500) * 60000) ∧
      jsGetMinutes (3390500 - 3390500 % 60000 +
        (M - jsGetMinutes 3390500) * 60000) = M % 60 ∧
      (3390500 : Int) < 3390500 - 3390500 % 60000 +
        (M - jsGetMinutes 3390500) * 60000) :=
  ⟨⟨by norm_num, by norm_num⟩,
   C3_amended_step_minute 7 3390500 (by norm_num) (by norm_num)⟩


/-! ### The daily branch (C8) -/

/-- `setDate(getDate() + 1)` is exactly a one-day shift. -/
theorem jsSetDate_next_day (t : Int) : jsSetDate t (jsGetDate t + 1) = t + 86400000 := by
  unfold jsSetDate
  ring

/-- **C8** (amended): `getNextRunTime("0 9 * * *")` returns the soonest
minute-aligned instant with hour 9 and minute 0 *strictly after* the call
time — today's 9:00 when the call time is strictly before 09:00:00.000,
otherwise tomorrow's — i.e. an instant `t ≡ 09:00 (mod day)` with
`now < t ≤ u` for every instant `u ≡ 09:00 (mod day)` strictly after `now`.
(The claim's "greater than or equal to the call time" fails only at exactly
09:00:00.000, where the code's `next <= now` rolls to tomorrow.) -/
theorem C8_amended_daily_soonest (now u : Int)
    (hu : u % 86400000 = 32400000) (hnu : now < u) :
    ∃ t : Int, getNextRunTime now (str "0 9 * * *") = some t ∧
      t % 86400000 = 32400000 ∧ jsGetHours t = 9 ∧ jsGetMinutes t = 0 ∧
      now < t ∧ t ≤ u := by
  have hsplit : splitOnChar ' ' (str "0 9 * * *") =
      [str "0", str "9", str "*", str "*", str "*"] := by decide
  have hT : jsSetMilliseconds (jsSetSeconds (jsSetMinutes (jsSetHours now
      ((parseIntJS (str "9")).getD 0)) ((parseIntJS (str "0")).getD 0)) 0) 0 =
      now - now % 86400000 + 32400000 := by
    have h9 : (parseIntJS (str "9")).getD 0 = 9 := by decide
    have h0 : (parseIntJS (str "0")).getD 0 = 0 := by decide
    rw [h9, h0]
    simp only [jsSetMilliseconds, jsSetSeconds, jsSetMinutes, jsSetHours,
      jsGetMilliseconds, jsGetSeconds, jsGetMinutes, jsGetHours]
    omega
  unfold getNextRunTime
  rw [hsplit]
  dsimp only
  simp only [show (str "0" == str "*") = false by decide,
    show (str "9" == str "*") = false by decide,
    show (starSlashMatch (str "0")).isSome = false by decide,
    show (parseIntJS (str "0")).isSome = true by decide,
    show (parseIntJS (str "9")).isSome = true by decide,
    show (str "*" == str "*") = true by decide,
    Bool.false_and, Bool.and_false, Bool.true_and, Bool.and_true,
    Bool.not_true, Bool.false_eq_true, if_false, if_true]
  rw [hT, jsSetDate_next_day]
  split_ifs with hle
  · refine ⟨now - now % 86400000 + 32400000 + 86400000, rfl, by omega, ?_, ?_,
      by omega, by omega⟩
    · unfold jsGetHours
      omega
    · unfold jsGetMinutes
      omega
  · refine ⟨now - now % 86400000 + 32400000, rfl, by omega, ?_, ?_,
      by omega, by omega⟩
    · unfold jsGetHours
      omega
    · unfold jsGetMinutes
      omega

/-- Witness for **C8** at `now = 0` (midnight 1970-01-01) and
`u` = that day's 09:00: the calculator returns 09:00 itself. -/
theorem C8_amended_witness :
    ((32400000 : Int) % 86400000 = 32400000 ∧ (0 : Int) < 32400000) ∧
    (∃ t : Int, getNextRunTime 0 (str "0 9 * * *") = some t ∧
      t % 86400000 = 32400000 ∧ jsGetHours t = 9 ∧ jsGetMinutes t = 0 ∧
      (0 : Int) < t ∧ t ≤ 32400000) :=
  ⟨⟨by decide, by decide⟩,
   C8_amended_daily_soonest 0 32400000 (by decide) (by decide)⟩


/-! ### Scheduler next-run maintenance (C6) -/

/-- The `catch` block does not touch `next_run_at`. -/
theorem runJobCatch_next_run_at (msg : Str) (s : SchedulerState) :
    (runJobCatch msg s).next_run_at = s.next_run_at := rfl

/-- Counter updates do not touch `next_run_at` or the cron expression. -/
theorem incrementRunCount_next_run_at (b : Bool) (s : SchedulerState) :
    (incrementRunCount b s).next_run_at = s.next_run_at ∧
      (incrementRunCount b s).cron = s.cron := by
  unfold incrementRunCount
  split_ifs <;> exact ⟨rfl, rfl⟩

/-- **C6** (amended): for a firing of an existing, enabled schedule whose
cron expression the calculator supports, `next_run_at` after `runJob` is the
calculator's output computed at this firing in the no-throw path (success or
failure result alike) and in the notify-throw path (the notification runs
after the update); for a throw at the dispatch, log-update, counter or
next-run statement, the `catch` path leaves `next_run_at` at its previous
(stale) value. -/
theorem C6_amended_next_run_update (now : Int) (tp : Option ThrowPoint)
    (r : ExecutionResult) (msg : Str) (st : SchedulerState) (t : Int)
    (hex : st.schedExists = true) (hen : st.enabled = true)
    (hnr : getNextRunTime now st.cron = some t) :
    (runJob now tp r msg st).next_run_at =
      (match tp with
       | none => some t
       | some ThrowPoint.atNotify => some t
       | some _ => st.next_run_at) := by
  unfold runJob
  simp only [hex, hen, Bool.not_true, Bool.false_eq_true, if_false]
  have hcron : ∀ b : Bool,
      (incrementRunCount b (updateLogTerminal r
        { schedExists := true, enabled := true, cron := st.cron,
          next_run_at := st.next_run_at, runCount := st.runCount,
          errorCount := st.errorCount,
          log := some { status := LogStatus.running, completedSet := false,
                        output := none, error := none } })).cron = st.cron := by
    intro b
    rw [(incrementRunCount_next_run_at b _).2]
    rfl
  rcases tp with _ | p
  · simp only [reduceCtorEq, if_false]
    rw [hcron, hnr]
  · cases p
    case atExec =>
      simp only [Option.some.injEq, reduceCtorEq, eq_self_iff_true, if_true,
        if_false]
      rw [runJobCatch_next_run_at]
    case atLogUpdate =>
      simp only [Option.some.injEq, reduceCtorEq, eq_self_iff_true, if_true,
        if_false]
      rw [runJobCatch_next_run_at]
    case atIncr =>
      simp only [Option.some.injEq, reduceCtorEq, eq_self_iff_true, if_true,
        if_false]
      rw [runJobCatch_next_run_at]
      rfl
    case atNextRun =>
      simp only [Option.some.injEq, reduceCtorEq, eq_self_iff_true, if_true,
        if_false]
      rw [runJobCatch_next_run_at, (incrementRunCount_next_run_at _ _).1]
      rfl
    case atNotify =>
      simp only [Option.some.injEq, reduceCtorEq, eq_self_iff_true, if_true,
        if_false]
      rw [runJobCatch_next_run_at, hcron, hnr]

/-- Witness for **C6** (amended) at the no-throw path with a concrete state:
`next_run_at` becomes the calculator output `1700038800000`. -/
theorem C6_amended_witness :
    (({ schedExists := true, enabled := true, cron := str "0 9 * * *",
        next_run_at := none, runCount := 0, errorCount := 0,
        log := none } : SchedulerState).schedExists = true ∧
     ({ schedExists := true, enabled := true, cron := str "0 9 * * *",
        next_run_at := none, runCount := 0, errorCount := 0,
        log := none } : SchedulerState).enabled = true ∧
     getNextRunTime sampleNow
       ({ schedExists := true, enabled := true, cron := str "0 9 * * *",
          next_run_at := none, runCount := 0, errorCount := 0,
          log := none } : SchedulerState).cron = some 1700038800000) ∧
    (runJob sampleNow none
      { success := false, output := str "boom-out", error := some (str "err"),
        exitCode := some 1 }
      (str "unused")
      { schedExists := true, enabled := true, cron := str "0 9 * * *",
        next_run_at := none, runCount := 0, errorCount := 0,
        log := none }).next_run_at = some 1700038800000 :=
  ⟨⟨rfl, rfl, by decide⟩,
   C6_amended_next_run_update sampleNow none
     { success := false, output := str "boom-out", error := some (str "err"),
       exitCode := some 1 }
     (str "unused")
     { schedExists := true, enabled := true, cron := str "0 9 * * *",
       next_run_at := none, runCount := 0, errorCount := 0, log := none }
     1700038800000 rfl rfl (by decide)⟩


/-! ### Character-class lemmas for the cron passthrough (C7, C9) -/

/-- The characters a cron field may contain. -/
def isCronFieldChar (c : Char) : Bool :=
  isDigit c || c = '*' || c = '/' || c = ',' || c = '-'

/-- A digit is in no part of the JS whitespace class. -/
theorem isDigit_not_space {c : Char} (h : isDigit c = true) :
    isSpaceJS c = false := by
  simp only [isDigit, Bool.and_eq_true, decide_eq_true_eq] at h
  by_contra hs
  simp only [Bool.not_eq_false] at hs
  simp only [isSpaceJS, Bool.or_eq_true, Bool.and_eq_true, decide_eq_true_eq] at hs
  rcases hs with ((((((((((((((h1 | h1) | h1) | h1) | h1) | h1) | h1) | h1) | ⟨h1, h2⟩) | h1) | h1) | h1) | h1) | h1) | h1)
  all_goals first
    | (subst h1; exact absurd h.1 (by decide))
    | (subst h1; exact absurd h.2 (by decide))
    | (exact absurd (le_trans h1 h.2) (by decide))

/-- A cron field character is not whitespace. -/
theorem fieldChar_not_space {c : Char} (h : isCronFieldChar c = true) :
    isSpaceJS c = false := by
  simp only [isCronFieldChar, Bool.or_eq_true, decide_eq_true_eq] at h
  rcases h with ((((hd | h1) | h1) | h1) | h1)
  · exact isDigit_not_space hd
  all_goals subst h1; decide

/-- A digit is unchanged by `toLowerCase`. -/
theorem isDigit_toLower {c : Char} (h : isDigit c = true) : jsToLower c = c := by
  simp only [isDigit, Bool.and_eq_true, decide_eq_true_eq] at h
  unfold jsToLower
  rw [if_neg]
  simp only [Bool.and_eq_true, decide_eq_true_eq, not_and]
  intro hA
  exact absurd (le_trans hA h.2) (by decide)

/-- A cron field character is unchanged by `toLowerCase`. -/
theorem fieldChar_toLower {c : Char} (h : isCronFieldChar c = true) :
    jsToLower c = c := by
  simp only [isCronFieldChar, Bool.or_eq_true, decide_eq_true_eq] at h
  rcases h with ((((hd | h1) | h1) | h1) | h1)
  · exact isDigit_toLower hd
  all_goals subst h1; decide

/-- A whitespace character is unchanged by `toLowerCase`. -/
theorem space_toLower {c : Char} (h : isSpaceJS c = true) : jsToLower c = c := by
  simp only [isSpaceJS, Bool.or_eq_true, Bool.and_eq_true, decide_eq_true_eq] at h
  unfold jsToLower
  rw [if_neg]
  simp only [Bool.and_eq_true, decide_eq_true_eq, not_and]
  intro hA hZ
  rcases h with ((((((((((((((h1 | h1) | h1) | h1) | h1) | h1) | h1) | h1) | ⟨h1, h2⟩) | h1) | h1) | h1) | h1) | h1) | h1)
  all_goals first
    | (subst h1; exact absurd hA (by decide))
    | (subst h1; exact absurd hZ (by decide))
    | (exact absurd (le_trans h1 hZ) (by decide))

/-- `takeWhile` stops exactly at the first failing character. -/
theorem takeWhile_append_stop {p : Char → Bool} (l1 : Str) (c : Char) (l2 : Str)
    (h1 : ∀ x ∈ l1, p x = true) (hc : p c = false) :
    (l1 ++ c :: l2).takeWhile p = l1 := by
  induction l1 with
  | nil => simp [List.takeWhile, hc]
  | cons a l ih =>
    have ha := h1 a (List.mem_cons_self a l)
    simp [List.takeWhile, ha, ih fun x hx => h1 x (List.mem_cons_of_mem a hx)]

/-- `dropWhile` keeps everything from the first failing character on. -/
theorem dropWhile_append_stop {p : Char → Bool} (l1 : Str) (c : Char) (l2 : Str)
    (h1 : ∀ x ∈ l1, p x = true) (hc : p c = false) :
    (l1 ++ c :: l2).dropWhile p = c :: l2 := by
  induction l1 with
  | nil => simp [List.dropWhile, hc]
  | cons a l ih =>
    have ha := h1 a (List.mem_cons_self a l)
    simp [List.dropWhile, ha, ih fun x hx => h1 x (List.mem_cons_of_mem a hx)]

/-- `takeWhile` of an all-satisfying list is the whole list. -/
theorem takeWhile_of_all {p : Char → Bool} (l : Str)
    (h : ∀ x ∈ l, p x = true) : l.takeWhile p = l := by
  induction l with
  | nil => rfl
  | cons a l ih =>
    have ha := h a (List.mem_cons_self a l)
    simp [List.takeWhile, ha, ih fun x hx => h x (List.mem_cons_of_mem a hx)]

/-- `dropWhile` of an all-satisfying list is empty. -/
theorem dropWhile_of_all {p : Char → Bool} (l : Str)
    (h : ∀ x ∈ l, p x = true) : l.dropWhile p = [] := by
  induction l with
  | nil => rfl
  | cons a l ih =>
    have ha := h a (List.mem_cons_self a l)
    simp [List.dropWhile, ha, ih fun x hx => h x (List.mem_cons_of_mem a hx)]


/-- A field accepted by the field pattern is nonempty and consists of cron
field characters. -/
theorem cronFieldOk_chars (f : Str) (h : cronFieldOk f = true) :
    f ≠ [] ∧ ∀ x ∈ f, isCronFieldChar x = true := by
  simp only [cronFieldOk, Bool.or_eq_true, decide_eq_true_eq] at h
  rcases h with (h | h) | h
  · subst h
    refine ⟨by simp, ?_⟩
    intro x hx
    simp only [List.mem_singleton] at hx
    subst hx
    decide
  · split at h
    · simp only [Bool.and_eq_true, Bool.not_eq_true', List.all_eq_true] at h
      refine ⟨by simp, ?_⟩
      intro x hx
      simp only [List.mem_cons] at hx
      rcases hx with rfl | rfl | hx
      · decide
      · decide
      · have hd := h.2 x hx
        simp only [isCronFieldChar, hd, Bool.true_or]
    · simp at h
  · rw [Bool.and_eq_true] at h
    obtain ⟨h1, h2⟩ := h
    simp only [List.all_eq_true] at h2
    refine ⟨?_, ?_⟩
    · intro hnil
      subst hnil
      simp at h1
    intro x hx
    have hb := h2 x hx
    simp only [Bool.or_eq_true, decide_eq_true_eq] at hb
    simp only [isCronFieldChar, Bool.or_eq_true, decide_eq_true_eq]
    tauto

/-- Structure of a string accepted by the cron shape: every character is a
field character or whitespace, and both ends are field characters. -/
theorem matchCronFields_chars :
    ∀ n s, matchCronFields n s = true →
      (∀ x ∈ s, (isCronFieldChar x || isSpaceJS x) = true) ∧
      (∃ a t, s = a :: t ∧ isCronFieldChar a = true) ∧
      (∃ b u, s.reverse = b :: u ∧ isCronFieldChar b = true) := by
  intro n
  induction n using Nat.strong_induction_on with
  | _ n ih =>
    rcases n with _ | _ | n
    · intro s h
      simp [matchCronFields] at h
    · intro s h
      simp only [matchCronFields, Bool.and_eq_true] at h
      obtain ⟨hok, hemp⟩ := h
      have hdw : s.dropWhile (fun c => !isSpaceJS c) = [] := by
        simpa [List.isEmpty_iff] using hemp
      have hseq : s.takeWhile (fun c => !isSpaceJS c) = s := by
        have hsplit := List.takeWhile_append_dropWhile (fun c => !isSpaceJS c) s
        rw [hdw, List.append_nil] at hsplit
        exact hsplit
      rw [hseq] at hok
      obtain ⟨hne, hall⟩ := cronFieldOk_chars s hok
      refine ⟨fun x hx => by simp [hall x hx], ?_, ?_⟩
      · obtain ⟨a, t, rfl⟩ := List.exists_cons_of_ne_nil hne
        exact ⟨a, t, rfl, hall a (List.mem_cons_self a t)⟩
      · have hrne : s.reverse ≠ [] := by
          simpa [List.reverse_eq_nil_iff] using hne
        obtain ⟨b, u, hrev⟩ := List.exists_cons_of_ne_nil hrne
        refine ⟨b, u, hrev, hall b ?_⟩
        rw [← List.mem_reverse, hrev]
        exact List.mem_cons_self b u
    · intro s h
      simp only [matchCronFields, Bool.and_eq_true] at h
      obtain ⟨hok, hrest⟩ := h
      cases hdw : s.dropWhile (fun c => !isSpaceJS c) with
      | nil => rw [hdw] at hrest; simp at hrest
      | cons d r =>
        rw [hdw] at hrest
        have hrec : matchCronFields (n + 1) ((d :: r).dropWhile isSpaceJS) = true := hrest
        obtain ⟨ihall, ⟨a, t, hcons, hafc⟩, ⟨b, u, hrev, hbfc⟩⟩ :=
          ih (n + 1) (by omega) _ hrec
        have hs : s = s.takeWhile (fun c => !isSpaceJS c) ++ (d :: r) := by
          conv_lhs => rw [← List.takeWhile_append_dropWhile (fun c => !isSpaceJS c) s]
          rw [hdw]
        obtain ⟨hfne, hfall⟩ := cronFieldOk_chars _ hok
        have hdr : (d :: r) = (d :: r).takeWhile isSpaceJS ++ (d :: r).dropWhile isSpaceJS :=
          (List.takeWhile_append_dropWhile isSpaceJS (d :: r)).symm
        refine ⟨?_, ?_, ?_⟩
        · intro x hx
          rw [hs] at hx
          rcases List.mem_append.mp hx with hx | hx
          · simp [hfall x hx]
          · rw [hdr] at hx
            rcases List.mem_append.mp hx with hx | hx
            · simp [List.mem_takeWhile_imp hx]
            · exact ihall x hx
        · obtain ⟨a0, t0, he⟩ := List.exists_cons_of_ne_nil hfne
          refine ⟨a0, t0 ++ d :: r, ?_, ?_⟩
          · rw [hs, he]
            rfl
          · exact hfall a0 (by rw [he]; exact List.mem_cons_self a0 t0)
        · refine ⟨b, u ++ ((d :: r).takeWhile isSpaceJS).reverse ++
            (s.takeWhile (fun c => !isSpaceJS c)).reverse, ?_, hbfc⟩
          conv_lhs => rw [hs, hdr]
          rw [List.reverse_append, List.reverse_append, hrev]
          simp

/-- A map whose function fixes every element of a list fixes the list. -/
theorem listMap_fix {f : Char → Char} : ∀ l : Str, (∀ x ∈ l, f x = x) → l.map f = l := by
  intro l h
  induction l with
  | nil => rfl
  | cons a t ih =>
    simp only [List.map_cons]
    rw [h a (List.mem_cons_self a t), ih fun x hx => h x (List.mem_cons_of_mem a hx)]

/-- A string accepted by `CRON_REGEX` is unchanged by `toLowerCase()`. -/
theorem cronTest_toLower {s : Str} (h : cronRegexTest s = true) : jsToLowerStr s = s := by
  obtain ⟨hall, -, -⟩ := matchCronFields_chars 5 s h
  refine listMap_fix s fun x hx => ?_
  have hx2 := hall x hx
  simp only [Bool.or_eq_true] at hx2
  rcases hx2 with hx2 | hx2
  · exact fieldChar_toLower hx2
  · exact space_toLower hx2

/-- A string accepted by `CRON_REGEX` is unchanged by `trim()`. -/
theorem cronTest_trim {s : Str} (h : cronRegexTest s = true) : jsTrim s = s := by
  obtain ⟨-, ⟨a, t, rfl, hafc⟩, ⟨b, u, hrev, hbfc⟩⟩ := matchCronFields_chars 5 _ h
  unfold jsTrim
  rw [List.dropWhile_cons, if_neg (by simp [fieldChar_not_space hafc])]
  rw [hrev, List.dropWhile_cons, if_neg (by simp [fieldChar_not_space hbfc]), ← hrev,
    List.reverse_reverse]

/-- Any string accepted by `CRON_REGEX` takes the passthrough branch of
`parseSchedule` and comes back verbatim. -/
theorem cron_passthrough (now : Int) (c : Str) (h : cronRegexTest c = true) :
    parseSchedule now c = .ok c (str "Custom cron expression") := by
  simp only [parseSchedule, cronTest_toLower h, cronTest_trim h, h, if_true]

/-- A hit of the first-match combinator comes from a member of the list. -/
theorem firstSome_mem {α β : Type} (fs : List (α → Option β)) (x : α) (r : β)
    (h : firstSome fs x = some r) : ∃ f ∈ fs, f x = some r := by
  induction fs with
  | nil => simp [firstSome] at h
  | cons f fs ih =>
    simp only [firstSome] at h
    cases hf : f x with
    | some v =>
      rw [hf] at h
      exact ⟨f, List.mem_cons_self f fs, by rw [hf]; exact h⟩
    | none =>
      rw [hf] at h
      obtain ⟨g, hg, hgx⟩ := ih h
      exact ⟨g, List.mem_cons_of_mem f hg, hgx⟩


/-- A rendered number is accepted as a cron field. -/
theorem cronFieldOk_natToStr (n : Nat) : cronFieldOk (natToStr n) = true := by
  unfold cronFieldOk
  cases he : natToStr n with
  | nil => exact absurd he (natToStr_ne_nil n)
  | cons a t =>
    rw [Bool.or_eq_true]
    right
    rw [Bool.and_eq_true]
    refine ⟨rfl, ?_⟩
    rw [List.all_eq_true]
    intro x hx
    have hd := natToStr_all_digits n x (by rw [he]; exact hx)
    simp [hd]

/-- `*/N` with a rendered number is accepted as a cron field. -/
theorem cronFieldOk_starSlash (n : Nat) : cronFieldOk ('*' :: '/' :: natToStr n) = true := by
  unfold cronFieldOk
  rw [Bool.or_eq_true]
  left
  rw [Bool.or_eq_true]
  right
  show (!(natToStr n).isEmpty && (natToStr n).all isDigit) = true
  rw [Bool.and_eq_true]
  constructor
  · cases he : natToStr n with
    | nil => exact absurd he (natToStr_ne_nil n)
    | cons a t => rfl
  · rw [List.all_eq_true]
    exact natToStr_all_digits n

/-- Single-field base case of the cron shape. -/
theorem matchCronFields_one (f : Str) (hf : cronFieldOk f = true) :
    matchCronFields 1 f = true := by
  obtain ⟨-, hall⟩ := cronFieldOk_chars f hf
  have hns : ∀ x ∈ f, (!isSpaceJS x) = true := fun x hx => by
    simp [fieldChar_not_space (hall x hx)]
  simp only [matchCronFields, Bool.and_eq_true]
  constructor
  · rw [takeWhile_of_all f hns]
    exact hf
  · rw [dropWhile_of_all f hns]
    rfl

/-- Extending the cron shape with one field and one separating space. -/
theorem matchCronFields_cons (n : Nat) (f rest : Str)
    (hf : cronFieldOk f = true) (hr : matchCronFields (n + 1) rest = true) :
    matchCronFields (n + 2) (f ++ ' ' :: rest) = true := by
  obtain ⟨-, hall⟩ := cronFieldOk_chars f hf
  have hns : ∀ x ∈ f, (!isSpaceJS x) = true := fun x hx => by
    simp [fieldChar_not_space (hall x hx)]
  obtain ⟨-, ⟨a, t, hcons, hafc⟩, -⟩ := matchCronFields_chars (n + 1) rest hr
  simp only [matchCronFields, Bool.and_eq_true]
  constructor
  · rw [takeWhile_append_stop f ' ' rest hns (by decide)]
    exact hf
  · rw [dropWhile_append_stop f ' ' rest hns (by decide)]
    show matchCronFields (n + 1) ((' ' :: rest).dropWhile isSpaceJS) = true
    rw [List.dropWhile_cons, if_pos (by decide)]
    rw [hcons, List.dropWhile_cons, if_neg (by simp [fieldChar_not_space hafc]), ← hcons]
    exact hr

/-- Five space-separated accepted fields pass `CRON_REGEX`. -/
theorem cronRegexTest_join5 (f1 f2 f3 f4 f5 : Str)
    (h1 : cronFieldOk f1 = true) (h2 : cronFieldOk f2 = true)
    (h3 : cronFieldOk f3 = true) (h4 : cronFieldOk f4 = true)
    (h5 : cronFieldOk f5 = true) :
    cronRegexTest (f1 ++ ' ' :: (f2 ++ ' ' :: (f3 ++ ' ' :: (f4 ++ ' ' :: f5)))) = true := by
  unfold cronRegexTest
  exact matchCronFields_cons 3 f1 _ h1
    (matchCronFields_cons 2 f2 _ h2
      (matchCronFields_cons 1 f3 _ h3
        (matchCronFields_cons 0 f4 _ h4
          (matchCronFields_one f5 h5))))

/-- The `*/N * * * *` template passes `CRON_REGEX`. -/
theorem cronTemplate_minStep (n : Nat) :
    cronRegexTest (str "*/" ++ natToStr n ++ str " * * * *") = true := by
  have e : str "*/" ++ natToStr n ++ str " * * * *" =
      ('*' :: '/' :: natToStr n) ++ ' ' :: (['*'] ++ ' ' :: (['*'] ++ ' ' :: (['*'] ++ ' ' :: ['*']))) := by
    have a1 : str "*/" = ['*', '/'] := rfl
    have a2 : str " * * * *" = [' ', '*', ' ', '*', ' ', '*', ' ', '*'] := rfl
    rw [a1, a2]
    simp
  rw [e]
  exact cronRegexTest_join5 _ _ _ _ _ (cronFieldOk_starSlash n) (by decide) (by decide)
    (by decide) (by decide)

/-- The `0 */N * * *` template passes `CRON_REGEX`. -/
theorem cronTemplate_hourStep (n : Nat) :
    cronRegexTest (str "0 */" ++ natToStr n ++ str " * * *") = true := by
  have e : str "0 */" ++ natToStr n ++ str " * * *" =
      ['0'] ++ ' ' :: (('*' :: '/' :: natToStr n) ++ ' ' :: (['*'] ++ ' ' :: (['*'] ++ ' ' :: ['*']))) := by
    have a1 : str "0 */" = ['0', ' ', '*', '/'] := rfl
    have a2 : str " * * *" = [' ', '*', ' ', '*', ' ', '*'] := rfl
    rw [a1, a2]
    simp
  rw [e]
  exact cronRegexTest_join5 _ _ _ _ _ (by decide) (cronFieldOk_starSlash n) (by decide)
    (by decide) (by decide)

/-- The `M H * * *` template passes `CRON_REGEX`. -/
theorem cronTemplate_daily (m h : Nat) :
    cronRegexTest (natToStr m ++ str " " ++ natToStr h ++ str " * * *") = true := by
  have e : natToStr m ++ str " " ++ natToStr h ++ str " * * *" =
      natToStr m ++ ' ' :: (natToStr h ++ ' ' :: (['*'] ++ ' ' :: (['*'] ++ ' ' :: ['*']))) := by
    have a1 : str " " = [' '] := rfl
    have a2 : str " * * *" = [' ', '*', ' ', '*', ' ', '*'] := rfl
    rw [a1, a2]
    simp
  rw [e]
  exact cronRegexTest_join5 _ _ _ _ _ (cronFieldOk_natToStr m) (cronFieldOk_natToStr h)
    (by decide) (by decide) (by decide)

/-- The `M H * * D` template passes `CRON_REGEX`. -/
theorem cronTemplate_dow (m h d : Nat) :
    cronRegexTest (natToStr m ++ str " " ++ natToStr h ++ str " * * " ++ natToStr d) = true := by
  have e : natToStr m ++ str " " ++ natToStr h ++ str " * * " ++ natToStr d =
      natToStr m ++ ' ' :: (natToStr h ++ ' ' :: (['*'] ++ ' ' :: (['*'] ++ ' ' :: natToStr d))) := by
    have a1 : str " " = [' '] := rfl
    have a2 : str " * * " = [' ', '*', ' ', '*', ' '] := rfl
    rw [a1, a2]
    simp
  rw [e]
  exact cronRegexTest_join5 _ _ _ _ _ (cronFieldOk_natToStr m) (cronFieldOk_natToStr h)
    (by decide) (by decide) (cronFieldOk_natToStr d)

/-- The `M H * * 1-5` template passes `CRON_REGEX`. -/
theorem cronTemplate_weekdays (m h : Nat) :
    cronRegexTest (natToStr m ++ str " " ++ natToStr h ++ str " * * 1-5") = true := by
  have e : natToStr m ++ str " " ++ natToStr h ++ str " * * 1-5" =
      natToStr m ++ ' ' :: (natToStr h ++ ' ' :: (['*'] ++ ' ' :: (['*'] ++ ' ' :: ['1', '-', '5']))) := by
    have a1 : str " " = [' '] := rfl
    have a2 : str " * * 1-5" = [' ', '*', ' ', '*', ' ', '1', '-', '5'] := rfl
    rw [a1, a2]
    simp
  rw [e]
  exact cronRegexTest_join5 _ _ _ _ _ (cronFieldOk_natToStr m) (cronFieldOk_natToStr h)
    (by decide) (by decide) (by decide)

/-- The `M H * * 0,6` template passes `CRON_REGEX`. -/
theorem cronTemplate_weekend (m h : Nat) :
    cronRegexTest (natToStr m ++ str " " ++ natToStr h ++ str " * * 0,6") = true := by
  have e : natToStr m ++ str " " ++ natToStr h ++ str " * * 0,6" =
      natToStr m ++ ' ' :: (natToStr h ++ ' ' :: (['*'] ++ ' ' :: (['*'] ++ ' ' :: ['0', ',', '6']))) := by
    have a1 : str " " = [' '] := rfl
    have a2 : str " * * 0,6" = [' ', '*', ' ', '*', ' ', '0', ',', '6'] := rfl
    rw [a1, a2]
    simp
  rw [e]
  exact cronRegexTest_join5 _ _ _ _ _ (cronFieldOk_natToStr m) (cronFieldOk_natToStr h)
    (by decide) (by decide) (by decide)

/-- The one-shot `M H D Mo *` template passes `CRON_REGEX`. -/
theorem cronTemplate_oneShot (a b c d : Nat) :
    cronRegexTest (natToStr a ++ str " " ++ natToStr b ++ str " " ++ natToStr c ++ str " " ++
      natToStr d ++ str " *") = true := by
  have e : natToStr a ++ str " " ++ natToStr b ++ str " " ++ natToStr c ++ str " " ++
      natToStr d ++ str " *" =
      natToStr a ++ ' ' :: (natToStr b ++ ' ' :: (natToStr c ++ ' ' :: (natToStr d ++ ' ' :: ['*']))) := by
    have a1 : str " " = [' '] := rfl
    have a2 : str " *" = [' ', '*'] := rfl
    rw [a1, a2]
    simp
  rw [e]
  exact cronRegexTest_join5 _ _ _ _ _ (cronFieldOk_natToStr a) (cronFieldOk_natToStr b)
    (cronFieldOk_natToStr c) (cronFieldOk_natToStr d) (by decide)

/-- A one-shot cron rendering passes `CRON_REGEX` when the target is in
range, and is the Invalid-Date rendering otherwise. -/
theorem oneShotCron_cases (t : Int) :
    cronRegexTest (oneShotCron t) = true ∨ oneShotCron t = str "NaN NaN NaN NaN *" := by
  unfold oneShotCron
  split_ifs
  · exact Or.inl (cronTemplate_oneShot _ _ _ _)
  · exact Or.inr rfl


/-- `every N minutes` output passes `CRON_REGEX`. -/
theorem everyMinutesRule_good (s c h : Str) (hs : everyMinutesRule s = some (c, h)) :
    cronRegexTest c = true := by
  simp only [everyMinutesRule, Option.bind_eq_some] at hs
  obtain ⟨n, -, hif⟩ := hs
  split_ifs at hif <;>
    first
      | (simp only [Option.some.injEq, Prod.mk.injEq] at hif
         obtain ⟨hc, -⟩ := hif
         subst hc
         exact cronTemplate_minStep n)
      | simp at hif

/-- `N分ごと` output passes `CRON_REGEX`. -/
theorem jpMinutesRule_good (s c h : Str) (hs : jpMinutesRule s = some (c, h)) :
    cronRegexTest c = true := by
  simp only [jpMinutesRule, Option.bind_eq_some] at hs
  obtain ⟨n, -, hif⟩ := hs
  split_ifs at hif <;>
    first
      | (simp only [Option.some.injEq, Prod.mk.injEq] at hif
         obtain ⟨hc, -⟩ := hif
         subst hc
         exact cronTemplate_minStep n)
      | simp at hif

/-- `every hour` output passes `CRON_REGEX`. -/
theorem everyHourRule_good (s c h : Str) (hs : everyHourRule s = some (c, h)) :
    cronRegexTest c = true := by
  simp only [everyHourRule] at hs
  split_ifs at hs <;>
    first
      | (simp only [Option.some.injEq, Prod.mk.injEq] at hs
         obtain ⟨hc, -⟩ := hs
         subst hc
         exact show cronRegexTest (str "0 * * * *") = true by decide)
      | simp at hs

/-- `every N hours` output passes `CRON_REGEX`. -/
theorem everyHoursRule_good (s c h : Str) (hs : everyHoursRule s = some (c, h)) :
    cronRegexTest c = true := by
  simp only [everyHoursRule, Option.bind_eq_some] at hs
  obtain ⟨n, -, hif⟩ := hs
  split_ifs at hif <;>
    first
      | (simp only [Option.some.injEq, Prod.mk.injEq] at hif
         obtain ⟨hc, -⟩ := hif
         subst hc
         exact cronTemplate_hourStep n)
      | simp at hif

/-- `N時間ごと` output passes `CRON_REGEX`. -/
theorem jpHoursRule_good (s c h : Str) (hs : jpHoursRule s = some (c, h)) :
    cronRegexTest c = true := by
  simp only [jpHoursRule, Option.bind_eq_some] at hs
  obtain ⟨n, -, hif⟩ := hs
  split_ifs at hif <;>
    first
      | (simp only [Option.some.injEq, Prod.mk.injEq] at hif
         obtain ⟨hc, -⟩ := hif
         subst hc
         exact cronTemplate_hourStep n)
      | simp at hif

/-- `every day at T` output passes `CRON_REGEX`. -/
theorem dailyRule_good (s c h : Str) (hs : dailyRule s = some (c, h)) :
    cronRegexTest c = true := by
  simp only [dailyRule, Option.bind_eq_some, Option.map_eq_some'] at hs
  obtain ⟨g, -, ⟨hh, mm⟩, -, heq⟩ := hs
  simp only [Prod.mk.injEq] at heq
  obtain ⟨hc, -⟩ := heq
  subst hc
  exact cronTemplate_daily mm hh

/-- `毎日X時Y分` output passes `CRON_REGEX`. -/
theorem jpDailyRule_good (s c h : Str) (hs : jpDailyRule s = some (c, h)) :
    cronRegexTest c = true := by
  simp only [jpDailyRule, Option.map_eq_some'] at hs
  obtain ⟨⟨hh, mm⟩, -, heq⟩ := hs
  simp only [Prod.mk.injEq] at heq
  obtain ⟨hc, -⟩ := heq
  subst hc
  exact cronTemplate_daily mm hh

/-- Every hit of the English weekday loop passes `CRON_REGEX`. -/
theorem weekdayRuleAux_good (l : List (Str × Nat)) (s c h : Str)
    (hs : weekdayRuleAux l s = some (c, h)) : cronRegexTest c = true := by
  induction l with
  | nil => simp [weekdayRuleAux] at hs
  | cons p rest ih =>
    obtain ⟨name, num⟩ := p
    simp only [weekdayRuleAux] at hs
    split at hs
    all_goals first
      | exact ih hs
      | (split at hs
         all_goals first
           | exact ih hs
           | (simp only [Option.some.injEq, Prod.mk.injEq] at hs
              obtain ⟨hc, -⟩ := hs
              subst hc
              exact cronTemplate_dow _ _ num))

/-- `every WEEKDAY at T` output passes `CRON_REGEX`. -/
theorem weekdayRule_good (s c h : Str) (hs : weekdayRule s = some (c, h)) :
    cronRegexTest c = true := weekdayRuleAux_good WEEKDAYS s c h hs

/-- Every hit of the Japanese weekday loop passes `CRON_REGEX`. -/
theorem jpWeekdayRuleAux_good (l : List (Str × Nat)) (s c h : Str)
    (hs : jpWeekdayRuleAux l s = some (c, h)) : cronRegexTest c = true := by
  induction l with
  | nil => simp [jpWeekdayRuleAux] at hs
  | cons p rest ih =>
    obtain ⟨name, num⟩ := p
    simp only [jpWeekdayRuleAux] at hs
    split at hs
    all_goals first
      | exact ih hs
      | (simp only [Option.some.injEq, Prod.mk.injEq] at hs
         obtain ⟨hc, -⟩ := hs
         subst hc
         exact cronTemplate_dow _ _ num)

/-- `毎週X曜日 X時` output passes `CRON_REGEX`. -/
theorem jpWeekdayRule_good (s c h : Str) (hs : jpWeekdayRule s = some (c, h)) :
    cronRegexTest c = true := jpWeekdayRuleAux_good WEEKDAYS s c h hs

/-- `weekdays at T` output passes `CRON_REGEX`. -/
theorem weekdaysRule_good (s c h : Str) (hs : weekdaysRule s = some (c, h)) :
    cronRegexTest c = true := by
  simp only [weekdaysRule, Option.bind_eq_some, Option.map_eq_some'] at hs
  obtain ⟨g, -, ⟨hh, mm⟩, -, heq⟩ := hs
  simp only [Prod.mk.injEq] at heq
  obtain ⟨hc, -⟩ := heq
  subst hc
  exact cronTemplate_weekdays mm hh

/-- `平日X時` output passes `CRON_REGEX`. -/
theorem jpWeekdaysRule_good (s c h : Str) (hs : jpWeekdaysRule s = some (c, h)) :
    cronRegexTest c = true := by
  simp only [jpWeekdaysRule, Option.map_eq_some'] at hs
  obtain ⟨⟨hh, mm⟩, -, heq⟩ := hs
  simp only [Prod.mk.injEq] at heq
  obtain ⟨hc, -⟩ := heq
  subst hc
  exact cronTemplate_weekdays mm hh

/-- `weekend at T` output passes `CRON_REGEX`. -/
theorem weekendRule_good (s c h : Str) (hs : weekendRule s = some (c, h)) :
    cronRegexTest c = true := by
  simp only [weekendRule, Option.bind_eq_some, Option.map_eq_some'] at hs
  obtain ⟨g, -, ⟨hh, mm⟩, -, heq⟩ := hs
  simp only [Prod.mk.injEq] at heq
  obtain ⟨hc, -⟩ := heq
  subst hc
  exact cronTemplate_weekend mm hh

/-- `週末X時` output passes `CRON_REGEX`. -/
theorem jpWeekendRule_good (s c h : Str) (hs : jpWeekendRule s = some (c, h)) :
    cronRegexTest c = true := by
  simp only [jpWeekendRule, Option.map_eq_some'] at hs
  obtain ⟨⟨hh, mm⟩, -, heq⟩ := hs
  simp only [Prod.mk.injEq] at heq
  obtain ⟨hc, -⟩ := heq
  subst hc
  exact cronTemplate_weekend mm hh

/-- `N分後` output passes `CRON_REGEX` unless the target date is out of range. -/
theorem inMinutesRule_good (now : Int) (s c h : Str)
    (hs : inMinutesRule now s = some (c, h)) :
    cronRegexTest c = true ∨ c = str "NaN NaN NaN NaN *" := by
  simp only [inMinutesRule, Option.map_eq_some'] at hs
  obtain ⟨n, -, heq⟩ := hs
  simp only [Prod.mk.injEq] at heq
  obtain ⟨hc, -⟩ := heq
  subst hc
  exact oneShotCron_cases _

/-- `in N minutes` output passes `CRON_REGEX` unless the target date is out of range. -/
theorem inMinutesEngRule_good (now : Int) (s c h : Str)
    (hs : inMinutesEngRule now s = some (c, h)) :
    cronRegexTest c = true ∨ c = str "NaN NaN NaN NaN *" := by
  simp only [inMinutesEngRule, Option.map_eq_some'] at hs
  obtain ⟨n, -, heq⟩ := hs
  simp only [Prod.mk.injEq] at heq
  obtain ⟨hc, -⟩ := heq
  subst hc
  exact oneShotCron_cases _

/-- `明日X時` output passes `CRON_REGEX` unless tomorrow's date is out of
range. -/
theorem tomorrowRule_good (now : Int) (s c h : Str)
    (hs : tomorrowRule now s = some (c, h)) :
    cronRegexTest c = true ∨
    ∃ m hr, c = natToStr m ++ str " " ++ natToStr hr ++ str " " ++ str "NaN" ++ str " " ++
      str "NaN" ++ str " *" := by
  simp only [tomorrowRule, Option.bind_eq_some] at hs
  obtain ⟨⟨hh, mm⟩, -, hif⟩ := hs
  split_ifs at hif <;>
    first
      | (simp only [Option.some.injEq, Prod.mk.injEq] at hif
         obtain ⟨hc, -⟩ := hif
         subst hc
         cases hv : dateValid (jsSetDate now (jsGetDate now + 1)) with
         | true =>
           refine Or.inl ?_
           simp only [renderGetDate, renderGetMonthPlus1, hv, eq_self_iff_true, if_true]
           exact cronTemplate_oneShot _ _ _ _
         | false =>
           refine Or.inr ⟨mm, hh, ?_⟩
           simp only [renderGetDate, renderGetMonthPlus1, hv, Bool.false_eq_true, if_false])
      | simp at hif

/-- `tomorrow at T` output passes `CRON_REGEX` unless tomorrow's date is out
of range. -/
theorem tomorrowEngRule_good (now : Int) (s c h : Str)
    (hs : tomorrowEngRule now s = some (c, h)) :
    cronRegexTest c = true ∨
    ∃ m hr, c = natToStr m ++ str " " ++ natToStr hr ++ str " " ++ str "NaN" ++ str " " ++
      str "NaN" ++ str " *" := by
  simp only [tomorrowEngRule, Option.bind_eq_some, Option.map_eq_some'] at hs
  obtain ⟨g, -, ⟨hh, mm⟩, -, heq⟩ := hs
  simp only [Prod.mk.injEq] at heq
  obtain ⟨hc, -⟩ := heq
  subst hc
  cases hv : dateValid (jsSetDate now (jsGetDate now + 1)) with
  | true =>
    refine Or.inl ?_
    simp only [renderGetDate, renderGetMonthPlus1, hv, eq_self_iff_true, if_true]
    exact cronTemplate_oneShot _ _ _ _
  | false =>
    refine Or.inr ⟨mm, hh, ?_⟩
    simp only [renderGetDate, renderGetMonthPlus1, hv, Bool.false_eq_true, if_false]

/-- Bare `H:MM` output passes `CRON_REGEX`. -/
theorem simpleColonRule_good (s c h : Str) (hs : simpleColonRule s = some (c, h)) :
    cronRegexTest c = true := by
  simp only [simpleColonRule, Option.bind_eq_some] at hs
  obtain ⟨⟨hh, mm⟩, -, hif⟩ := hs
  split_ifs at hif <;>
    first
      | (simp only [Option.some.injEq, Prod.mk.injEq] at hif
         obtain ⟨hc, -⟩ := hif
         subst hc
         exact cronTemplate_daily mm hh)
      | simp at hif

/-- Bare `X時Y分` output passes `CRON_REGEX`. -/
theorem simpleJpRule_good (s c h : Str) (hs : simpleJpRule s = some (c, h)) :
    cronRegexTest c = true := by
  simp only [simpleJpRule, Option.bind_eq_some] at hs
  obtain ⟨⟨hh, mm, rr⟩, -, hif⟩ := hs
  split_ifs at hif <;>
    first
      | (simp only [Option.some.injEq, Prod.mk.injEq] at hif
         obtain ⟨hc, -⟩ := hif
         subst hc
         exact cronTemplate_daily mm hh)
      | simp at hif

/-- `N時間後` output passes `CRON_REGEX` unless the target date is out of range. -/
theorem inHoursRule_good (now : Int) (s c h : Str)
    (hs : inHoursRule now s = some (c, h)) :
    cronRegexTest c = true ∨ c = str "NaN NaN NaN NaN *" := by
  simp only [inHoursRule, Option.map_eq_some'] at hs
  obtain ⟨n, -, heq⟩ := hs
  simp only [Prod.mk.injEq] at heq
  obtain ⟨hc, -⟩ := heq
  subst hc
  exact oneShotCron_cases _

/-- `in N hours` output passes `CRON_REGEX` unless the target date is out of range. -/
theorem inHoursEngRule_good (now : Int) (s c h : Str)
    (hs : inHoursEngRule now s = some (c, h)) :
    cronRegexTest c = true ∨ c = str "NaN NaN NaN NaN *" := by
  simp only [inHoursEngRule, Option.map_eq_some'] at hs
  obtain ⟨n, -, heq⟩ := hs
  simp only [Prod.mk.injEq] at heq
  obtain ⟨hc, -⟩ := heq
  subst hc
  exact oneShotCron_cases _

/-- Every rule of the cascade emits either a cron expression accepted by
`CRON_REGEX` or a `NaN` rendering of an out-of-range one-shot date. -/
theorem ruleList_good (now : Int) (f : Str → Option (Str × Str)) (hf : f ∈ ruleList now)
    (s c h : Str) (hs : f s = some (c, h)) :
    cronRegexTest c = true ∨ c = str "NaN NaN NaN NaN *" ∨
    ∃ m hr, c = natToStr m ++ str " " ++ natToStr hr ++ str " " ++ str "NaN" ++ str " " ++
      str "NaN" ++ str " *" := by
  simp only [ruleList, List.mem_cons, List.not_mem_nil, or_false] at hf
  rcases hf with rfl | rfl | rfl | rfl | rfl | rfl | rfl | rfl | rfl | rfl | rfl | rfl | rfl | rfl | rfl | rfl | rfl | rfl | rfl | rfl | rfl
  · exact Or.inl (everyMinutesRule_good s c h hs)
  · exact Or.inl (jpMinutesRule_good s c h hs)
  · exact Or.inl (everyHourRule_good s c h hs)
  · exact Or.inl (everyHoursRule_good s c h hs)
  · exact Or.inl (jpHoursRule_good s c h hs)
  · exact Or.inl (dailyRule_good s c h hs)
  · exact Or.inl (jpDailyRule_good s c h hs)
  · exact Or.inl (weekdayRule_good s c h hs)
  · exact Or.inl (jpWeekdayRule_good s c h hs)
  · exact Or.inl (weekdaysRule_good s c h hs)
  · exact Or.inl (jpWeekdaysRule_good s c h hs)
  · exact Or.inl (weekendRule_good s c h hs)
  · exact Or.inl (jpWeekendRule_good s c h hs)
  · exact (inMinutesRule_good now s c h hs).imp id Or.inl
  · exact (inMinutesEngRule_good now s c h hs).imp id Or.inl
  · exact (tomorrowRule_good now s c h hs).imp id Or.inr
  · exact (tomorrowEngRule_good now s c h hs).imp id Or.inr
  · exact Or.inl (simpleColonRule_good s c h hs)
  · exact Or.inl (simpleJpRule_good s c h hs)
  · exact (inHoursRule_good now s c h hs).imp id Or.inl
  · exact (inHoursEngRule_good now s c h hs).imp id Or.inl

/-- Every successful parse yields either a cron expression accepted by
`CRON_REGEX` or a `NaN` rendering of an out-of-range one-shot date. -/
theorem parseSchedule_ok_cases (now : Int) (input c h : Str)
    (hp : parseSchedule now input = .ok c h) :
    cronRegexTest c = true ∨ c = str "NaN NaN NaN NaN *" ∨
    ∃ m hr, c = natToStr m ++ str " " ++ natToStr hr ++ str " " ++ str "NaN" ++ str " " ++
      str "NaN" ++ str " *" := by
  simp only [parseSchedule] at hp
  split_ifs at hp with ht
  · simp only [ParseResult.ok.injEq] at hp
    obtain ⟨hc, -⟩ := hp
    rw [← hc]
    exact Or.inl ht
  · cases hfs : firstSome (ruleList now) (jsTrim (jsToLowerStr input)) with
    | none =>
      rw [hfs] at hp
      simp at hp
    | some p =>
      obtain ⟨c2, h2⟩ := p
      rw [hfs] at hp
      simp only [ParseResult.ok.injEq] at hp
      obtain ⟨hc, -⟩ := hp
      subst hc
      obtain ⟨f, hmem, hfx⟩ := firstSome_mem _ _ _ hfs
      exact ruleList_good now f hmem _ _ _ hfx


/-- **C7** (counterexample to the original round-trip claim):
`1000000000000分後` parses successfully, but the one-shot target `Date`
(the clock plus 6e16 ms) lies beyond the ±8.64e15 ms range, so the getters
return `NaN`, the returned cron expression is `NaN NaN NaN NaN *`, and
re-parsing that expression fails. -/
theorem C7_counterexample :
    (parseSchedule sampleNow (str "1000000000000分後")).cron =
      some (str "NaN NaN NaN NaN *") ∧
    (parseSchedule sampleNow (str "NaN NaN NaN NaN *")).success = false := by
  constructor
  · decide
  · decide

/-- **C7** (amended): whenever `parseSchedule` succeeds, re-parsing the
returned cron expression at any clock reading either succeeds via the
passthrough with the identical expression, or the expression is a `NaN`
rendering of an out-of-range one-shot date — `NaN NaN NaN NaN *` from the
relative rules, or `M H NaN NaN *` from the tomorrow rules — which
`CRON_REGEX` rejects. -/
theorem C7_amended_roundtrip (now now2 : Int) (input c h : Str)
    (hp : parseSchedule now input = .ok c h) :
    parseSchedule now2 c = .ok c (str "Custom cron expression") ∨
    c = str "NaN NaN NaN NaN *" ∨
    ∃ m hr, c = natToStr m ++ str " " ++ natToStr hr ++ str " " ++ str "NaN" ++ str " " ++
      str "NaN" ++ str " *" := by
  rcases parseSchedule_ok_cases now input c h hp with hc | hnan
  · exact Or.inl (cron_passthrough now2 c hc)
  · exact Or.inr hnan

/-- Witness for **C7** (amended): `every day at 9:00` parses at the sample
clock; re-parsing its cron at clock 0 lands in the passthrough branch. -/
theorem C7_amended_witness :
    parseSchedule sampleNow (str "every day at 9:00") =
      .ok (str "0 9 * * *") (str "Every day at 9:00") ∧
    (parseSchedule 0 (str "0 9 * * *") =
        .ok (str "0 9 * * *") (str "Custom cron expression") ∨
     str "0 9 * * *" = str "NaN NaN NaN NaN *" ∨
     ∃ m hr, str "0 9 * * *" = natToStr m ++ str " " ++ natToStr hr ++ str " " ++
       str "NaN" ++ str " " ++ str "NaN" ++ str " *") :=
  ⟨by decide,
   C7_amended_roundtrip sampleNow 0 (str "every day at 9:00") (str "0 9 * * *")
     (str "Every day at 9:00") (by decide)⟩

/-- **C9**: the passthrough validates only the character-level shape of the
five fields, never numeric ranges: `99 99 99 99 99` is accepted as success
and returned unchanged as the cron expression, at every clock reading. -/
theorem C9_passthrough_no_range_check (now : Int) :
    parseSchedule now (str "99 99 99 99 99") =
      .ok (str "99 99 99 99 99") (str "Custom cron expression") :=
  cron_passthrough now (str "99 99 99 99 99") (by decide)

end ClaudeTime
